import Mathlib

/-!
Verification model of the JogWheel firmware (src/main.cpp).

The development shallowly embeds the three core subsystems of the firmware:

* the timer-interrupt motion decoder (two coil state machines sharing a
  single-slot movement mailbox),
* the EEPROM configuration store (a 26-byte header followed by up to 8
  variable-length configuration blocks, addressed through `header.configPtr`),
* the action codec (the textual spec parsers `parseK`, `parseM`, `parseW`,
  `parseC` and the display renderers `printConfigK` &c.).

Machine integers are modelled as `Nat`/`Int` with explicit reductions:
`u8`/`i8`/`u16` mirror the C conversions to `uint8_t`/`int8_t`/`uint16_t`,
and EEPROM is a byte-addressed map `Nat → Nat` holding values below 256.
-/

namespace JogWheel

/-- C conversion of an `int` value to `uint8_t` (low byte, two's complement). -/
def u8 (x : Int) : Nat := (x % 256).toNat

/-- C conversion of an `int` value to `uint16_t`. -/
def u16 (x : Int) : Nat := (x % 65536).toNat

/-- C conversion of an `int` value to `int8_t` (wrap into −128..127). -/
def i8 (x : Int) : Int := (x + 128) % 256 - 128

/-- AVR `unsigned long` (32-bit) subtraction `a - b`, as used on the
`micros()` timestamps in the ISR. Both arguments are reduced mod 2^32. -/
def wdiff (a b : Nat) : Nat := (a % 4294967296 + (4294967296 - b % 4294967296)) % 4294967296

/-! ## Motion decoder (the timer ISR)

`enum coilState_t : byte {low, rising, rose}` and
`enum movement_t : byte {cw, none, cc}` from the source.  The ISR runs the
two identical per-coil state machines in order (coil A = index 0 first),
sampling each coil and sharing the `movement` mailbox.  `TRIGGER(c) = 15`
and `RESET(c) = 10` for both coils, `MAX_PULSE_SEP = 40000` μs. -/

inductive CoilState where
  | low
  | rising
  | rose
deriving DecidableEq, Repr

inductive Movement where
  | cw
  | none
  | cc
deriving DecidableEq, Repr

/-- ISR-visible state: the two coil state machines, their recorded rise
timestamps (`static unsigned long risingTimestamp[2] = {0, 0}`), and the
shared `movement` mailbox. -/
structure DecState where
  stA : CoilState
  stB : CoilState
  tsA : Nat
  tsB : Nat
  mv : Movement
deriving DecidableEq, Repr

/-- Decoder state at boot: both machines `low`, timestamps 0, mailbox `none`. -/
def initDecState : DecState := ⟨.low, .low, 0, 0, .none⟩

/-- One coil's switch body inside the ISR.  `v` is the `analogRead` sample,
`now` the value `micros()` would return on this tick, `myTs`/`otherTs` the
two recorded rise timestamps and `dir` the movement this coil latches when
it completes a pulse pair (coil A latches `cc`, coil B latches `cw`).
Returns the updated coil state, updated own timestamp and updated mailbox. -/
def coilStep (st : CoilState) (v : Nat) (now myTs otherTs : Nat) (mv : Movement)
    (dir : Movement) : CoilState × Nat × Movement :=
  match st with
  | .low => (if v > 15 then .rising else .low, myTs, mv)
  | .rising =>
      if mv = .none then
        let ts := now % 4294967296
        if wdiff ts otherTs ≤ 40000 then (.rose, ts, dir) else (.rose, ts, mv)
      else (.rose, myTs, mv)
  | .rose => (if v < 10 then .low else .rose, myTs, mv)

/-- One execution of `ISR(TIMERx_COMPA_vect)`: coil A is processed first, then
coil B, which sees coil A's timestamp and mailbox updates from this same
tick. -/
def isrTick (s : DecState) (vA vB now : Nat) : DecState :=
  let a := coilStep s.stA vA now s.tsA s.tsB s.mv .cc
  let b := coilStep s.stB vB now s.tsB a.2.1 a.2.2 .cw
  ⟨a.1, b.1, a.2.1, b.2.1, b.2.2⟩

/-- Run the ISR over a list of ticks, each a triple
(coil A sample, coil B sample, `micros()` value). -/
def isrRun (s : DecState) (ticks : List (Nat × Nat × Nat)) : DecState :=
  ticks.foldl (fun st t => isrTick st t.1 t.2.1 t.2.2) s

/-! ## EEPROM configuration store

The EEPROM is modelled as a byte-addressed map `Nat → Nat` (values < 256).
`struct headerBlock` is 26 bytes on the AVR (packed, little-endian):
`uint16_t fingerprint` at 0, `uint8_t selection` at 2, `uint8_t curConfig[7]`
at 3..9, `uint16_t configPtr[8]` at 10..25.  A `configBlock` as persisted is
1 count byte followed by `nEntries` four-byte entry pairs
(`uint16_t entry[n][2]`, little-endian). -/

/-- EEPROM contents: byte value at each address. -/
def EE := Nat → Nat

/-- Write one byte (`v` is reduced to its low 8 bits, as any C store into a
byte does). -/
def wr8 (e : EE) (a v : Nat) : EE := fun x => if x = a then v % 256 else e x

/-- Write a list of bytes at consecutive addresses (`eeprom_write_block`). -/
def wrBytes (e : EE) (a : Nat) : List Nat → EE
  | [] => e
  | b :: bs => wrBytes (wr8 e a b) (a + 1) bs

/-- Read a little-endian `uint16_t`. -/
def rd16 (e : EE) (a : Nat) : Nat := e a + 256 * e (a + 1)

/-- Little-endian bytes of a `uint16_t`. -/
def bytes16 (v : Nat) : List Nat := [v % 256, v / 256 % 256]

/-- In-RAM copy of `struct headerBlock`.  `curConfig` has SEVEN entries
(one per selectable button chord) and `configPtr` eight, exactly as in the
source; both are kept as lists of those lengths. -/
structure HeaderBlock where
  fingerprint : Nat
  selection : Nat
  curConfig : List Nat
  configPtr : List Nat
deriving DecidableEq, Repr

/-- Well-formedness of the in-RAM header mirror: the fields fit their C
types and the arrays have the declared lengths (7 and 8). -/
def HeaderBlock.wf (h : HeaderBlock) : Prop :=
  h.fingerprint < 65536 ∧ h.selection < 256 ∧
  h.curConfig.length = 7 ∧ (∀ v ∈ h.curConfig, v < 256) ∧
  h.configPtr.length = 8 ∧ (∀ v ∈ h.configPtr, v < 65536)

instance (h : HeaderBlock) : Decidable h.wf := by
  unfold HeaderBlock.wf; infer_instance

/-- The 26 serialized bytes of the header, in EEPROM layout order. -/
def headerBytes (h : HeaderBlock) : List Nat :=
  bytes16 h.fingerprint ++ [h.selection % 256] ++ h.curConfig.map (· % 256) ++
    (h.configPtr.map bytes16).flatten

/-- `writeHeader()`: persist the 26 header bytes at EEPROM address 0. -/
def writeHeader (h : HeaderBlock) (e : EE) : EE := wrBytes e 0 (headerBytes h)

/-- Read the raw header bytes at address 0 back into a `headerBlock`
(the `eeprom_read_block` at the top of `readHeader()`). -/
def deserHeader (e : EE) : HeaderBlock where
  fingerprint := rd16 e 0
  selection := e 2
  curConfig := (List.range 7).map fun i => e (3 + i)
  configPtr := (List.range 8).map fun i => rd16 e (10 + 2 * i)

/-- In-RAM `struct configBlock` restricted to its live part: the entry count
and exactly that many (clockwise, counterclockwise) pairs.  (The C struct
reserves space for 32 pairs; only the first `nEntries` are ever read or
written, so the model carries exactly those.) -/
structure ConfigBlock where
  nEntries : Nat
  entry : List (Nat × Nat)
deriving DecidableEq, Repr

/-- Serialized bytes of a config block: 1 count byte then 4 bytes per pair. -/
def configBytes (cb : ConfigBlock) : List Nat :=
  cb.nEntries % 256 :: (cb.entry.map fun p => bytes16 p.1 ++ bytes16 p.2).flatten

/-- `writeConfig(cbn, cb)`: for a valid block number, persist the count byte
and the `nEntries` live entries at `header.configPtr[cbn]`; for an invalid
number do not touch EEPROM.  (The C version also zeroes the caller's
`cb.nEntries` in the invalid case; no modelled caller looks at `cb`
afterwards on that path.) -/
def writeConfig (h : HeaderBlock) (cbn : Nat) (cb : ConfigBlock) (e : EE) : EE :=
  if 8 ≤ cbn then e
  else wrBytes e (h.configPtr.getD cbn 0) (configBytes cb)

/-- `readConfig(cbn, cb)`: an out-of-range block number fails with zero
entries; otherwise the entry count is read at `header.configPtr[cbn]` and
then exactly that many entry pairs.  NOTE: exactly as in the source, there is
no check that the slot is in use (`configPtr[cbn] ≠ 0`). -/
def readConfig (h : HeaderBlock) (cbn : Nat) (e : EE) : Bool × ConfigBlock :=
  if 8 ≤ cbn then (false, ⟨0, []⟩)
  else
    let p := h.configPtr.getD cbn 0
    let n := e p
    (true, ⟨n, (List.range n).map fun i => (rd16 e (p + 1 + 4 * i), rd16 e (p + 3 + 4 * i))⟩)

/-- `readHeader()`: load the header from EEPROM; on fingerprint mismatch
(0xC29D) synthesize and persist the defaults — note the source sets
`header.selection = 1` — and report `false`. -/
def readHeader (e : EE) : Bool × HeaderBlock × EE :=
  let h := deserHeader e
  if h.fingerprint = 0xC29D then (true, h, e)
  else
    let h' : HeaderBlock :=
      { fingerprint := 0xC29D
        selection := 1
        curConfig := List.replicate 7 0
        configPtr := 26 :: List.replicate 7 0 }
    let cb : ConfigBlock := ⟨1, [(0xDA, 0xD9)]⟩
    let e' := writeConfig h' 0 cb (writeHeader h' e)
    (false, h', e')

/-- `setConfig(combo, cbn)`: `combo` must index `curConfig` (SEVEN entries),
`cbn` must index `configPtr` and address a used slot; then the mapping is
updated and the header persisted. -/
def setConfig (h : HeaderBlock) (combo cbn : Nat) (e : EE) : Bool × HeaderBlock × EE :=
  if 8 ≤ cbn ∨ 7 ≤ combo ∨ h.configPtr.getD cbn 0 = 0 then (false, h, e)
  else
    let h' := { h with curConfig := h.curConfig.set combo cbn }
    (true, h', writeHeader h' e)

/-- The loop of `freeSpace()`: starting from `1024 - sizeof(header)`,
subtract `cb.nEntries * sizeof(cb.entry[0])` — i.e. 4 bytes per entry and,
exactly as in the source, NOT the 1-byte count field — for every used block,
stopping at the first unused slot. -/
def freeSpaceAux (h : HeaderBlock) (e : EE) : Nat → Nat → Nat → Nat
  | 0, _, fs => fs
  | fuel + 1, cbn, fs =>
      if h.configPtr.getD cbn 0 ≠ 0 then
        freeSpaceAux h e fuel (cbn + 1) (fs - (readConfig h cbn e).2.nEntries * 4)
      else fs

/-- `freeSpace()`. -/
def freeSpace (h : HeaderBlock) (e : EE) : Nat := freeSpaceAux h e 8 0 (1024 - 26)

/-- The byte footprint a used block actually occupies in the packed layout:
the count field plus 4 bytes per entry (this is the `delta` of
`removeConfig` and the offset step of `addConfig`). -/
def blockFootprint (h : HeaderBlock) (e : EE) (cbn : Nat) : Nat :=
  1 + (readConfig h cbn e).2.nEntries * 4

/-- Sum of the footprints of the used blocks (stopping at the first unused
slot, like every loop in the source). -/
def footprintSumAux (h : HeaderBlock) (e : EE) : Nat → Nat → Nat
  | 0, _ => 0
  | fuel + 1, cbn =>
      if h.configPtr.getD cbn 0 ≠ 0 then
        blockFootprint h e cbn + footprintSumAux h e fuel (cbn + 1)
      else 0

def footprintSum (h : HeaderBlock) (e : EE) : Nat := footprintSumAux h e 8 0

/-- `nConfigs()`: number of contiguous used slots starting at 0 (slot 0 is
always counted). -/
def nConfigsAux (h : HeaderBlock) : Nat → Nat → Nat
  | 0, answer => answer
  | fuel + 1, answer =>
      if h.configPtr.getD answer 0 = 0 then answer else nConfigsAux h fuel (answer + 1)

def nConfigs (h : HeaderBlock) : Nat := nConfigsAux h 7 1

/-- The combo-map rewrite of `removeConfig`: a mapping equal to the removed
block becomes 0, a mapping above it is decremented (the two `if`s of the
source collapse to this because `0 > cbn` is false there). -/
def remapCombo (cbn v : Nat) : Nat := if v = cbn then 0 else if v > cbn then v - 1 else v

/-- The shift loop of `removeConfig`, exactly in source order per iteration:
stop (zeroing slot `cbi - 1`) when slot `cbi` is unused; otherwise read block
`cbi`, compute its new offset, ZERO `configPtr[cbi]`, rewrite the block at
slot `cbi - 1` (i.e. at whatever `configPtr[cbi - 1]` currently holds), and
then store the new offset into `configPtr[cbi - 1]`. -/
def removeLoop (delta : Nat) : Nat → Nat → HeaderBlock → EE → HeaderBlock × EE
  | 0, _, h, e => (h, e)
  | fuel + 1, cbi, h, e =>
      if h.configPtr.getD cbi 0 = 0 then
        ({ h with configPtr := h.configPtr.set (cbi - 1) 0 }, e)
      else
        let cb := (readConfig h cbi e).2
        let newPtr := u16 ((h.configPtr.getD cbi 0 : Int) - delta)
        let h1 := { h with configPtr := h.configPtr.set cbi 0 }
        let e1 := writeConfig h1 (cbi - 1) cb e
        let h2 := { h1 with configPtr := h1.configPtr.set (cbi - 1) newPtr }
        removeLoop delta fuel (cbi + 1) h2 e1

/-- `removeConfig(cbn)`. -/
def removeConfig (h : HeaderBlock) (cbn : Nat) (e : EE) : Bool × HeaderBlock × EE :=
  if cbn < 1 ∨ 8 ≤ cbn ∨ h.configPtr.getD cbn 0 = 0 then (false, h, e)
  else
    let h1 := { h with curConfig := h.curConfig.map (remapCombo cbn) }
    let delta := (readConfig h1 cbn e).2.nEntries * 4 + 1
    let (h2, e2) := removeLoop delta (8 - (cbn + 1)) (cbn + 1) h1 e
    (true, h2, writeHeader h2 e2)

/-- The slot-search loop of `addConfig` (first unused slot from 1 up;
the caller has already ensured slot 7 is free). -/
def firstFreeSlot (h : HeaderBlock) : Nat → Nat → Nat
  | 0, cbn => cbn
  | fuel + 1, cbn => if h.configPtr.getD cbn 0 ≠ 0 then firstFreeSlot h fuel (cbn + 1) else cbn

/-- `addConfig(toAdd)`: fails when the new block's entry bytes exceed
`freeSpace()` or all 8 slots are used; otherwise appends after the last used
slot, at the previous block's offset plus its live footprint. -/
def addConfig (h : HeaderBlock) (toAdd : ConfigBlock) (e : EE) : Bool × HeaderBlock × EE :=
  if toAdd.nEntries * 4 > freeSpace h e ∨ h.configPtr.getD 7 0 ≠ 0 then (false, h, e)
  else
    let cbn := firstFreeSlot h 7 1
    let prev := (readConfig h (cbn - 1) e).2
    let newPtr := h.configPtr.getD (cbn - 1) 0 + 1 + prev.nEntries * 4
    let h' := { h with configPtr := h.configPtr.set cbn newPtr }
    let e' := writeHeader h' (writeConfig h' cbn toAdd e)
    (true, h', e')

/-- An erased EEPROM: every byte 0xFF (so the fingerprint check fails). -/
def blankEE : EE := fun _ => 255

/-- The store state right after `readHeader()` on an erased EEPROM: the
factory defaults. -/
def defaultState : HeaderBlock × EE := ((readHeader blankEE).2.1, (readHeader blankEE).2.2)

/-! ## Action codec

Spec strings are modelled as `List Char`.  Arduino's `String::charAt` returns
the NUL character for an out-of-range index and `remove(0, 1)` drops the
first character; the pair is modelled by `headC`/`List.tail`. -/

/-- The NUL character `charAt` yields past the end of a string. -/
def nulC : Char := Char.ofNat 0

/-- The apostrophe that introduces a printable keystroke value. -/
def quoteC : Char := Char.ofNat 39

/-- `sp.charAt(0)`. -/
def headC (sp : List Char) : Char := sp.headD nulC

/-- `isdigit`. -/
def isDigitC (c : Char) : Bool := 48 ≤ c.toNat && c.toNat ≤ 57

/-- `isHexadecimalDigit`. -/
def isHexDigitC (c : Char) : Bool :=
  isDigitC c || (65 ≤ c.toNat && c.toNat ≤ 70) || (97 ≤ c.toNat && c.toNat ≤ 102)

/-- `isPrintable` on an AVR `char` (signed byte): true exactly for
0x20..0x7E. -/
def isPrintableC (c : Char) : Bool := 32 ≤ c.toNat && c.toNat ≤ 126

/-- The keyboard-modifier letters and their masks (`KB_CTRL_MASK` &c.; the
mouse entries use the same four mask values). -/
def kbFlagMask (c : Char) : Option Nat :=
  if c = 'C' ∨ c = 'c' then some 0x0800
  else if c = 'A' ∨ c = 'a' then some 0x0400
  else if c = 'S' ∨ c = 's' then some 0x0200
  else if c = 'G' ∨ c = 'g' then some 0x0100
  else none

/-- The modifier-prefix scan shared by `parseK`, `parseW` and `parseC`:
up to `fuel` (= 5 in the source) characters are consumed; a recognized flag
letter is or-ed into `answer`; the first other character ends the scan and is
returned as the current character `nc`, with the rest of the string. -/
def scanCASG : Nat → Nat → Char → List Char → Nat × Char × List Char
  | 0, answer, nc, sp => (answer, nc, sp)
  | fuel + 1, answer, _, sp =>
      let nc := headC sp
      let sp' := sp.tail
      match kbFlagMask nc with
      | some m => scanCASG fuel (answer ||| m) nc sp'
      | none => (answer, nc, sp')

/-- One hex digit, converted exactly as in `parseK`:
`hh <= '9' ? hh - '0' : hh < 'F' ? hh - 'A' + 10 : hh - 'a' + 10`.
Note that an uppercase `'F'` falls into the lowercase branch and converts to
−17 instead of 15. -/
def hexConv (c : Char) : Int :=
  if c.toNat ≤ 57 then (c.toNat : Int) - 48
  else if c.toNat < 70 then (c.toNat : Int) - 65 + 10
  else (c.toNat : Int) - 97 + 10

/-- `val = (hh << 4) + hl` truncated to `uint8_t`. -/
def hexByte (hh hl : Char) : Nat := u8 (hexConv hh * 16 + hexConv hl)

/-- `parseK()` — parse a keyboard spec; 0 signals a parse failure. -/
def parseK (spec : List Char) : Nat :=
  let s := scanCASG 5 0 nulC spec
  let answer := s.1
  let nc := s.2.1
  let sp := s.2.2
  if nc = quoteC then
    let c := headC sp
    if isPrintableC c then (answer ||| (c.toNat &&& 0x7F)) &&& 0xFDFF else 0
  else if nc = '0' then
    let x := headC sp
    let sp1 := sp.tail
    if (x = 'x' ∨ x = 'X') ∧ sp1.length = 2 then
      let hh := headC sp1
      let hl := headC sp1.tail
      if isHexDigitC hh ∧ isHexDigitC hl then answer ||| hexByte hh hl else 0
    else 0
  else 0

/-- The 1–3 digit accumulation loop of `parseW`/`parseM`.  `val` is the C
`int8_t val`, so every step wraps into −128..127.  Returns the value, the
first unconsumed-by-the-loop character and the rest of the string. -/
def digitLoop : Nat → Int → Char → List Char → Int × Char × List Char
  | 0, val, nc, sp => (val, nc, sp)
  | fuel + 1, val, nc, sp =>
      let val' := i8 (val * 10 + ((nc.toNat : Int) - 48))
      let nc' := headC sp
      let sp' := sp.tail
      if isDigitC nc' then digitLoop fuel val' nc' sp' else (val', nc', sp')

/-- The signed-number tail of `parseW` and of each `parseM` axis: a sign,
1–3 digits, the (dead, because `val` is an `int8_t`) `val > 255` check, and
the final `(isPos ? val : -val) & ME_VALUE_MASK`.  `none` signals the paths
on which the source sets `bad` and returns 0. -/
def parseNum (nc : Char) (sp : List Char) : Option (Nat × Char × List Char) :=
  if nc = '+' ∨ nc = '-' then
    let isPos := nc = '+'
    let nc1 := headC sp
    let sp1 := sp.tail
    if isDigitC nc1 then
      let d := digitLoop 3 0 nc1 sp1
      if d.1 > 255 then none
      else some (u8 (if isPos then d.1 else -d.1), d.2.1, d.2.2)
    else none
  else none

/-- `parseW()` — parse a mouse wheel-roll spec; 0 signals failure.  The
initial answer is `CE_TYPE_MASK` (wheel subtype is 0). -/
def parseW (spec : List Char) : Nat :=
  let s := scanCASG 5 0x8000 nulC spec
  match parseNum s.2.1 s.2.2 with
  | Option.none => 0
  | some r => s.1 ||| r.1

/-- The seven flag letters of a mouse-move prefix: the four keyboard
modifiers go to the Y-entry (`answer[1]`), the held-button letters to the
X-entry (`answer[0]`). -/
def mFlagMask (c : Char) : Option (Bool × Nat) :=
  if c = 'C' ∨ c = 'c' then some (true, 0x0800)
  else if c = 'A' ∨ c = 'a' then some (true, 0x0400)
  else if c = 'S' ∨ c = 's' then some (true, 0x0200)
  else if c = 'G' ∨ c = 'g' then some (true, 0x0100)
  else if c = 'L' ∨ c = 'l' then some (false, 0x0400)
  else if c = 'M' ∨ c = 'm' then some (false, 0x0200)
  else if c = 'R' ∨ c = 'r' then some (false, 0x0100)
  else none

/-- The 8-character prefix scan of `parseM`. -/
def scanM : Nat → Nat × Nat → Char → List Char → (Nat × Nat) × Char × List Char
  | 0, answer, nc, sp => (answer, nc, sp)
  | fuel + 1, answer, _, sp =>
      let nc := headC sp
      let sp' := sp.tail
      match mFlagMask nc with
      | some (true, m) => scanM fuel (answer.1, answer.2 ||| m) nc sp'
      | some (false, m) => scanM fuel (answer.1 ||| m, answer.2) nc sp'
      | none => (answer, nc, sp')

/-- `parseM()` — parse one mouse-movement spec (an X and a Y distance behind
one combined prefix) into `(answer[0] << 16) | answer[1]`; 0 signals
failure.  `answer[0]` starts as the move-X subtype, `answer[1]` as move-Y. -/
def parseM (spec : List Char) : Nat :=
  let s := scanM 8 (0x9000, 0xA000) nulC spec
  match parseNum s.2.1 s.2.2 with
  | Option.none => 0
  | some r0 =>
      match parseNum r0.2.1 r0.2.2 with
      | Option.none => 0
      | some r1 => (s.1.1 ||| r0.1) * 65536 + (s.1.2 ||| r1.1)

/-- The click-button letters and their `ME3_*` masks. -/
def m3Mask (c : Char) : Option Nat :=
  if c = 'L' ∨ c = 'l' then some 0x1
  else if c = 'M' ∨ c = 'm' then some 0x4
  else if c = 'R' ∨ c = 'r' then some 0x2
  else none

/-- The up-to-three button-letter loop of `parseC`; an unrecognized letter
is a failure, and scanning also stops at the end of the string (NUL). -/
def btnLoop : Nat → Nat → Char → List Char → Nat
  | 0, answer, _, _ => answer
  | fuel + 1, answer, nc, sp =>
      if nc.toNat = 0 then answer
      else
        match m3Mask nc with
        | Option.none => 0
        | some m => btnLoop fuel (answer ||| m) (headC sp) sp.tail

/-- `parseC()` — parse a mouse-click spec; 0 signals failure.  The initial
answer carries the click subtype; at least one button letter is required. -/
def parseC (spec : List Char) : Nat :=
  let s := scanCASG 5 0xB000 nulC spec
  if s.2.1.toNat = 0 then 0 else btnLoop 3 s.1 s.2.1 s.2.2

/-! ### Display renderers (`printConfig*`)

Each `printConfig*` in the source prints both directions of an entry pair
with a trailing blank; the model renders ONE direction's text (the loop
body), which is what the round-trip property compares. -/

/-- Decimal digits of a nonnegative number, as `Serial.print` emits them. -/
def decCharsAux : Nat → Nat → List Char
  | 0, _ => []
  | fuel + 1, n =>
      if n < 10 then [Char.ofNat (48 + n)]
      else decCharsAux fuel (n / 10) ++ [Char.ofNat (48 + n % 10)]

def decChars (n : Nat) : List Char := decCharsAux 3 n

/-- The canonical modifier-letter prefix `c a s g` a renderer emits for an
entry's `KB_*`/`ME_*` mask bits. -/
def casgChars (v : Nat) : List Char :=
  (if v &&& 0x0800 ≠ 0 then ['c'] else []) ++ (if v &&& 0x0400 ≠ 0 then ['a'] else []) ++
    (if v &&& 0x0200 ≠ 0 then ['s'] else []) ++ (if v &&& 0x0100 ≠ 0 then ['g'] else [])

/-- `Serial.print` of the `int8_t` value `b & 0xFF`, preceded by `+` when it
is nonnegative (`printConfigW`/`printConfigM`). -/
def signedDec (b : Nat) : List Char :=
  if b % 256 < 128 then '+' :: decChars (b % 256) else '-' :: decChars (256 - b % 256)

/-- Uppercase hex digit, as Arduino `Print` emits. -/
def hexDigitChar (n : Nat) : Char := Char.ofNat (if n < 10 then 48 + n else 55 + n)

/-- `Serial.print(value, HEX)` of a byte: no leading zero. -/
def hexChars (b : Nat) : List Char :=
  if b < 16 then [hexDigitChar b] else [hexDigitChar (b / 16), hexDigitChar (b % 16)]

/-- One direction of `printConfigK`: modifier letters, then either an
apostrophe and the character itself (printable and above blank — on the AVR
the value is a signed `char`, so bytes ≥ 0x80 are negative and take the hex
path) or `0x` and the value in hex. -/
def printConfigK (v : Nat) : List Char :=
  casgChars v ++
    (let ks := v &&& 0xFF
     if 33 ≤ ks ∧ ks ≤ 126 then [quoteC, Char.ofNat ks]
     else '0' :: 'x' :: hexChars ks)

/-- One direction of `printConfigW`: modifier letters then the signed wheel
amount. -/
def printConfigW (v : Nat) : List Char := casgChars v ++ signedDec (v &&& 0xFF)

/-- The held-button letters of a move's X entry (`ME1_*` masks). -/
def lmrChars1 (v : Nat) : List Char :=
  (if v &&& 0x0400 ≠ 0 then ['l'] else []) ++ (if v &&& 0x0200 ≠ 0 then ['m'] else []) ++
    (if v &&& 0x0100 ≠ 0 then ['r'] else [])

/-- One direction of `printConfigM`: modifiers from the Y entry, held
buttons from the X entry, then the two signed distances. -/
def printConfigM (vA vB : Nat) : List Char :=
  casgChars vB ++ lmrChars1 vA ++ signedDec (vA &&& 0xFF) ++ signedDec (vB &&& 0xFF)

/-- The clicked-button letters (`ME3_*` masks, printed l, m, r). -/
def lmrChars3 (v : Nat) : List Char :=
  (if v &&& 0x1 ≠ 0 then ['l'] else []) ++ (if v &&& 0x4 ≠ 0 then ['m'] else []) ++
    (if v &&& 0x2 ≠ 0 then ['r'] else [])

/-- One direction of `printConfigC`: modifier letters then button letters. -/
def printConfigC (v : Nat) : List Char := casgChars v ++ lmrChars3 v

/-! ### Round-trip helper definitions (claim C4) -/

/-- Or of the `KB_*` masks of a flag-letter list, in scan order. -/
def flagOrK : List Char → Nat
  | [] => 0
  | c :: cs => (kbFlagMask c).getD 0 ||| flagOrK cs

def flagOrMX : List Char → Nat
  | [] => 0
  | c :: cs =>
      (match mFlagMask c with
       | some (false, m) => m
       | _ => 0) ||| flagOrMX cs

def flagOrMY : List Char → Nat
  | [] => 0
  | c :: cs =>
      (match mFlagMask c with
       | some (true, m) => m
       | _ => 0) ||| flagOrMY cs

/-- The proviso under which a stored keyboard entry survives the
print-then-reparse cycle: either the value byte is in the printable band
(and then the shift modifier must be absent, since the quote form cannot
express it), or it is outside the band, at least 0x10 (one hex digit would
be printed otherwise, and `parseK` demands two), and its low nibble is not
0xF (the uppercase-`F` conversion bug, claim C9). -/
def kbRoundTrippable (p : Nat) : Prop :=
  (33 ≤ p % 256 ∧ p % 256 ≤ 126 ∧ p / 512 % 2 = 0) ∨
    (¬(33 ≤ p % 256 ∧ p % 256 ≤ 126) ∧ 16 ≤ p % 256 ∧ p % 256 % 16 ≠ 15)

/-! ## The `new` command's parsing loop (`onNew`)

The loop consumes the command's words two at a time (`getWord` returns the
empty string past the end of the line), accumulates parsed entry pairs, and
aborts the whole request (`none`) as soon as any spec is bad. -/

/-- The body of `onNew`'s while loop.  `n` is `cb.nEntries`, `acc` the
entries parsed so far; `none` is the `bad` exit that discards the request. -/
def newLoop : Nat → List (List Char) → Nat → List (Nat × Nat) →
    Option (Nat × List (Nat × Nat))
  | 0, _, n, acc => some (n, acc)
  | fuel + 1, ws, n, acc =>
      if 32 ≤ n then some (n, acc)
      else
        let spec0 := ws.headD []
        let spec1 := ws.tail.headD []
        let rest := ws.tail.tail
        if spec0 = [] then some (n, acc)
        else
          let st := headC spec0
          let body := spec0.tail
          if spec1 = [] then Option.none
          else if st = 'M' ∨ st = 'm' then
            if 32 ≤ n + 1 then Option.none
            else
              let d0 := parseM body
              let d1 := parseM spec1
              if d0 = 0 ∨ d1 = 0 then Option.none
              else newLoop fuel rest (n + 2)
                (acc ++ [(d0 / 65536, d1 / 65536), (d0 % 65536, d1 % 65536)])
          else
            let p0 := if st = 'K' ∨ st = 'k' then parseK body
              else if st = 'W' ∨ st = 'w' then parseW body
              else if st = 'C' ∨ st = 'c' then parseC body
              else 0
            let p1 := if st = 'K' ∨ st = 'k' then parseK spec1
              else if st = 'W' ∨ st = 'w' then parseW spec1
              else if st = 'C' ∨ st = 'c' then parseC spec1
              else 0
            if p0 = 0 ∨ p1 = 0 then Option.none
            else newLoop fuel rest (n + 1) (acc ++ [(p0, p1)])

/-- `onNew` up to the point where it either discards the request (`none`)
or hands the accumulated block to `addConfig`. -/
def onNew (ws : List (List Char)) : Option ConfigBlock :=
  match newLoop 17 ws 0 [] with
  | Option.none => Option.none
  | some r => some ⟨r.1, r.2⟩

/-! ## Concrete reachable store states used by the theorems -/

/-- Default store plus a second block holding one entry pair (0x41, 0x42). -/
def fourBlock1 : Bool × HeaderBlock × EE :=
  addConfig defaultState.1 ⟨1, [(0x41, 0x42)]⟩ defaultState.2

/-- ... plus a third block holding (0x43, 0x44). -/
def fourBlock2 : Bool × HeaderBlock × EE :=
  addConfig fourBlock1.2.1 ⟨1, [(0x43, 0x44)]⟩ fourBlock1.2.2

/-- ... plus a fourth block holding (0x45, 0x46): blocks 0..3 used. -/
def fourBlock3 : Bool × HeaderBlock × EE :=
  addConfig fourBlock2.2.1 ⟨1, [(0x45, 0x46)]⟩ fourBlock2.2.2

/-- The four-block store after `removeConfig(1)`. -/
def afterRemove : Bool × HeaderBlock × EE := removeConfig fourBlock3.2.1 1 fourBlock3.2.2

/-! ## Serialization lemmas

These connect the byte-level EEPROM image with the in-RAM structures: what
`writeHeader`/`writeConfig` persist is read back exactly by
`deserHeader`/`readConfig`. -/

lemma list7_eq {l : List Nat} (h : l.length = 7) :
    ∃ a b c d e f g, l = [a, b, c, d, e, f, g] := by
  rcases l with _ | ⟨a, l⟩; · simp at h
  rcases l with _ | ⟨b, l⟩; · simp at h
  rcases l with _ | ⟨c, l⟩; · simp at h
  rcases l with _ | ⟨d, l⟩; · simp at h
  rcases l with _ | ⟨e, l⟩; · simp at h
  rcases l with _ | ⟨f, l⟩; · simp at h
  rcases l with _ | ⟨g, l⟩; · simp at h
  rcases l with _ | ⟨x, l⟩
  · exact ⟨a, b, c, d, e, f, g, rfl⟩
  · simp at h

lemma list8_eq {l : List Nat} (h : l.length = 8) :
    ∃ a b c d e f g i, l = [a, b, c, d, e, f, g, i] := by
  rcases l with _ | ⟨a, l⟩; · simp at h
  obtain ⟨b, c, d, e, f, g, i, rfl⟩ := list7_eq (by simpa using h)
  exact ⟨a, b, c, d, e, f, g, i, rfl⟩

lemma deserHeader_writeHeader (h : HeaderBlock) (e : EE) (hw : h.wf) :
    deserHeader (writeHeader h e) = h := by
  rcases h with ⟨f, s, cur, ptr⟩
  obtain ⟨hf, hs, hc, hcv, hp, hpv⟩ := hw
  simp only at hf hs hc hcv hp hpv
  obtain ⟨c0, c1, c2, c3, c4, c5, c6, rfl⟩ := list7_eq hc
  obtain ⟨p0, p1, p2, p3, p4, p5, p6, p7, rfl⟩ := list8_eq hp
  have hc0 : c0 < 256 := hcv c0 (by simp)
  have hc1 : c1 < 256 := hcv c1 (by simp)
  have hc2 : c2 < 256 := hcv c2 (by simp)
  have hc3 : c3 < 256 := hcv c3 (by simp)
  have hc4 : c4 < 256 := hcv c4 (by simp)
  have hc5 : c5 < 256 := hcv c5 (by simp)
  have hc6 : c6 < 256 := hcv c6 (by simp)
  have hq0 : p0 < 65536 := hpv p0 (by simp)
  have hq1 : p1 < 65536 := hpv p1 (by simp)
  have hq2 : p2 < 65536 := hpv p2 (by simp)
  have hq3 : p3 < 65536 := hpv p3 (by simp)
  have hq4 : p4 < 65536 := hpv p4 (by simp)
  have hq5 : p5 < 65536 := hpv p5 (by simp)
  have hq6 : p6 < 65536 := hpv p6 (by simp)
  have hq7 : p7 < 65536 := hpv p7 (by simp)
  clear hcv hpv
  simp only [deserHeader, writeHeader, headerBytes, bytes16, List.map, List.flatten,
    wrBytes, wr8, rd16, List.append_eq, List.cons_append, List.nil_append,
    HeaderBlock.mk.injEq, List.range_succ, List.range_zero, List.map_append,
    List.map_cons, List.map_nil]
  norm_num
  refine ⟨by omega, by omega, ⟨?_, ?_, ?_, ?_, ?_, ?_, ?_⟩, ?_, ?_, ?_, ?_, ?_, ?_, ?_, ?_⟩ <;>
    omega

lemma wrBytes_lt : ∀ (bs : List Nat) (e : EE) (a x : Nat), x < a → wrBytes e a bs x = e x := by
  intro bs
  induction bs with
  | nil => intro e a x _; rfl
  | cons b bs ih =>
      intro e a x hx
      simp only [wrBytes]
      rw [ih _ _ _ (by omega)]
      simp [wr8, Nat.ne_of_lt hx]

lemma wrBytes_ge : ∀ (bs : List Nat) (e : EE) (a x : Nat), a + bs.length ≤ x →
    wrBytes e a bs x = e x := by
  intro bs
  induction bs with
  | nil => intro e a x _; rfl
  | cons b bs ih =>
      intro e a x hx
      simp only [List.length_cons] at hx
      simp only [wrBytes]
      rw [ih _ _ _ (by omega)]
      simp only [wr8]
      rw [if_neg (by omega)]

lemma wrBytes_get : ∀ (bs : List Nat) (e : EE) (a i : Nat), i < bs.length →
    wrBytes e a bs (a + i) = bs.getD i 0 % 256 := by
  intro bs
  induction bs with
  | nil => intro e a i h; simp at h
  | cons b bs ih =>
      intro e a i h
      rcases i with _ | i
      · simp only [wrBytes, Nat.add_zero]
        rw [wrBytes_lt _ _ _ _ (by omega)]
        simp [wr8]
      · simp only [wrBytes]
        have : a + (i + 1) = (a + 1) + i := by omega
        rw [this, ih _ _ _ (by simpa using h)]
        simp

lemma entry_flat_getD : ∀ (l : List (Nat × Nat)) (i j : Nat), j < 4 → i < l.length →
    ((l.map fun q => bytes16 q.1 ++ bytes16 q.2).flatten).getD (4 * i + j) 0 =
      (bytes16 (l.getD i (0, 0)).1 ++ bytes16 (l.getD i (0, 0)).2).getD j 0 := by
  intro l
  induction l with
  | nil => intro i j _ hi; simp at hi
  | cons hd tl ih =>
      intro i j hj hi
      rcases i with _ | i
      · simp only [List.map_cons, List.flatten_cons, Nat.mul_zero, Nat.zero_add]
        rw [List.getD_append _ _ _ _ (by simp [bytes16]; omega)]
        simp
      · simp only [List.map_cons, List.flatten_cons]
        have hlen : (bytes16 hd.1 ++ bytes16 hd.2).length = 4 := by simp [bytes16]
        rw [List.getD_append_right _ _ _ _ (by omega)]
        have harith : 4 * (i + 1) + j - (bytes16 hd.1 ++ bytes16 hd.2).length = 4 * i + j := by
          omega
        rw [harith, ih i j hj (by simpa using hi)]
        simp

lemma flat_len : ∀ l : List (Nat × Nat),
    ((l.map fun q => bytes16 q.1 ++ bytes16 q.2).flatten).length = 4 * l.length := by
  intro l
  induction l with
  | nil => rfl
  | cons hd tl ih =>
      simp only [List.map_cons, List.flatten_cons, List.length_append, ih, List.length_cons]
      simp only [bytes16, List.length_append, List.length_cons, List.length_nil]
      omega

lemma configBytes_length (cb : ConfigBlock) (h : cb.nEntries = cb.entry.length) :
    (configBytes cb).length = 1 + 4 * cb.nEntries := by
  simp only [configBytes, List.length_cons, flat_len cb.entry, h]
  omega

lemma readConfig_writeConfig (h : HeaderBlock) (cbn : Nat) (cb : ConfigBlock) (e : EE)
    (hn : cbn < 8) (hlen : cb.nEntries = cb.entry.length) (hsm : cb.nEntries < 256)
    (hv : ∀ q ∈ cb.entry, q.1 < 65536 ∧ q.2 < 65536) :
    readConfig h cbn (writeConfig h cbn cb e) = (true, cb) := by
  have hn8 : ¬ 8 ≤ cbn := by omega
  simp only [readConfig, writeConfig, if_neg hn8]
  set p := h.configPtr.getD cbn 0 with hp
  have hL : (configBytes cb).length = 1 + 4 * cb.nEntries := configBytes_length cb hlen
  have hcount : wrBytes e p (configBytes cb) p = cb.nEntries := by
    have h0 := wrBytes_get (configBytes cb) e p 0 (by simp [configBytes])
    simpa [configBytes, Nat.mod_eq_of_lt hsm] using h0
  have hfl : ∀ i j, i < cb.nEntries → j < 4 → (configBytes cb).getD (1 + 4 * i + j) 0 =
      (bytes16 (cb.entry.getD i (0, 0)).1 ++ bytes16 (cb.entry.getD i (0, 0)).2).getD j 0 := by
    intro i j hi hj
    simp only [configBytes]
    have harith : (1 + 4 * i + j) = (4 * i + j) + 1 := by omega
    rw [harith, List.getD_cons_succ]
    exact entry_flat_getD cb.entry i j hj (by omega)
  have hbyte : ∀ i j, i < cb.nEntries → j < 4 →
      wrBytes e p (configBytes cb) (p + (1 + 4 * i + j)) =
        (bytes16 (cb.entry.getD i (0, 0)).1 ++ bytes16 (cb.entry.getD i (0, 0)).2).getD j 0 := by
    intro i j hi hj
    rw [wrBytes_get (configBytes cb) e p (1 + 4 * i + j) (by omega), hfl i j hi hj]
    rcases j with _ | _ | _ | _ | j
    · simp [bytes16]
    · simp [bytes16]
    · simp [bytes16]
    · simp [bytes16]
    · omega
  rw [hcount]
  refine Prod.ext rfl ?_
  simp only
  have hmemv : ∀ i, i < cb.nEntries → (cb.entry.getD i (0, 0)).1 < 65536 ∧
      (cb.entry.getD i (0, 0)).2 < 65536 := by
    intro i hi
    have hi' : i < cb.entry.length := by omega
    have : cb.entry.getD i (0, 0) ∈ cb.entry := by
      rw [List.getD_eq_getElem cb.entry (0, 0) hi']
      exact List.getElem_mem hi'
    exact hv _ this
  have hlist : List.map
      (fun i => (rd16 (wrBytes e p (configBytes cb)) (p + 1 + 4 * i),
        rd16 (wrBytes e p (configBytes cb)) (p + 3 + 4 * i)))
      (List.range cb.nEntries) = cb.entry := by
    apply List.ext_getElem
    · simp [hlen]
    · intro i h1 h2
      have hi : i < cb.nEntries := by simpa using h1
      simp only [List.getElem_map, List.getElem_range]
      rw [← List.getD_eq_getElem cb.entry (0, 0) h2]
      have b0 := hbyte i 0 hi (by omega)
      have b1 := hbyte i 1 hi (by omega)
      have b2 := hbyte i 2 hi (by omega)
      have b3 := hbyte i 3 hi (by omega)
      simp only [bytes16, List.cons_append, List.nil_append, List.getD_cons_zero,
        List.getD_cons_succ] at b0 b1 b2 b3
      have hm := hmemv i hi
      have e1 : p + 1 + 4 * i = p + (1 + 4 * i + 0) := by omega
      have e2 : p + 1 + 4 * i + 1 = p + (1 + 4 * i + 1) := by omega
      have e3 : p + 3 + 4 * i = p + (1 + 4 * i + 2) := by omega
      have e4 : p + 3 + 4 * i + 1 = p + (1 + 4 * i + 3) := by omega
      simp only [rd16]
      rw [e2, e4, e1, e3, b0, b1, b2, b3]
      rw [← Prod.mk.eta (p := cb.entry.getD i (0, 0)), Prod.mk.injEq]
      obtain ⟨hx1, hx2⟩ := hm
      constructor <;> omega
  rcases cb with ⟨n, entries⟩
  simp only at hlist ⊢
  rw [hlist]

/-! ## Claim theorems -/

/-- Claim C1: the claim states `freeSpace()` = 1024 − header size − Σ(count
field + entries × pair size) over used blocks, equivalently
`freeSpace() + Σ blockFootprint = 1024 − headerSize`.  The code's loop
subtracts only `cb.nEntries * sizeof(cb.entry[0])` and omits the
`sizeof(cb.nEntries)` count byte of every used block, so already in the
factory-default store (one block, one entry) it reports 994 instead of
1024 − 26 − 5 = 993, and conservation fails: 994 + 5 ≠ 998. -/
theorem c1_freeSpace_ignores_count_fields :
    freeSpace defaultState.1 defaultState.2 = 994 ∧
    footprintSum defaultState.1 defaultState.2 = 5 ∧
    freeSpace defaultState.1 defaultState.2 + footprintSum defaultState.1 defaultState.2 ≠
      1024 - 26 := by decide

/-- Claim C2, counterexample: starting from the boot state (both machines
`low`, mailbox `None`, both recorded timestamps 0), a rise on channel A
recorded at t = 1000 followed by a rise on channel B recorded at t = 2000 —
well inside the 40000 μs window — latches CounterClockwise, not the
Clockwise the claim requires: channel A's own rise already pairs with
channel B's initial zero timestamp. -/
theorem c2_boot_pair_counterexample :
    (isrRun initDecState [(100, 0, 500), (100, 0, 1000), (0, 100, 1500), (0, 0, 2000)]).mv
        = Movement.cc ∧
      Movement.cc ≠ Movement.cw := by decide

/-- Claim C2, amended: the stated behaviour holds provided the first rise of
the pair is NOT itself within the pulse-separation window of the other
channel's previously recorded timestamp (with the boot value 0 this means
the first pulse must be recorded more than 40000 μs of wrapped 32-bit time
after zero).  Then: (1) rise on A then rise on B within the window latches
exactly one Clockwise; (2) the reverse order latches CounterClockwise;
(3) a separation beyond the window latches nothing; (4) while the mailbox is
occupied a further pulse pair latches nothing although both channels still
advance Rising → Rose → Low. -/
theorem c2_decoder_timing_amended :
    (∀ a0 b0 tA tB t1 t3 : Nat,
      ¬ wdiff (tA % 4294967296) b0 ≤ 40000 →
      wdiff (tB % 4294967296) (tA % 4294967296) ≤ 40000 →
      isrRun ⟨.low, .low, a0, b0, .none⟩
          [(100, 0, t1), (0, 0, tA), (0, 100, t3), (0, 0, tB)] =
        ⟨.low, .rose, tA % 4294967296, tB % 4294967296, .cw⟩) ∧
    (∀ a0 b0 tA tB t1 t3 : Nat,
      ¬ wdiff (tB % 4294967296) a0 ≤ 40000 →
      wdiff (tA % 4294967296) (tB % 4294967296) ≤ 40000 →
      isrRun ⟨.low, .low, a0, b0, .none⟩
          [(0, 100, t1), (0, 0, tB), (100, 0, t3), (0, 0, tA)] =
        ⟨.rose, .low, tA % 4294967296, tB % 4294967296, .cc⟩) ∧
    (∀ a0 b0 tA tB t1 t3 : Nat,
      ¬ wdiff (tA % 4294967296) b0 ≤ 40000 →
      ¬ wdiff (tB % 4294967296) (tA % 4294967296) ≤ 40000 →
      isrRun ⟨.low, .low, a0, b0, .none⟩
          [(100, 0, t1), (0, 0, tA), (0, 100, t3), (0, 0, tB)] =
        ⟨.low, .rose, tA % 4294967296, tB % 4294967296, .none⟩) ∧
    (∀ (a0 b0 t1 t2 t3 t4 t5 : Nat) (m : Movement), m ≠ .none →
      (isrRun ⟨.low, .low, a0, b0, m⟩ [(100, 0, t1)]).stA = .rising ∧
      (isrRun ⟨.low, .low, a0, b0, m⟩ [(100, 0, t1), (100, 0, t2)]).stA = .rose ∧
      (isrRun ⟨.low, .low, a0, b0, m⟩
          [(100, 0, t1), (100, 0, t2), (0, 100, t3)]).stA = .low ∧
      (isrRun ⟨.low, .low, a0, b0, m⟩
          [(100, 0, t1), (100, 0, t2), (0, 100, t3)]).stB = .rising ∧
      (isrRun ⟨.low, .low, a0, b0, m⟩
          [(100, 0, t1), (100, 0, t2), (0, 100, t3), (0, 0, t4)]).stB = .rose ∧
      isrRun ⟨.low, .low, a0, b0, m⟩
          [(100, 0, t1), (100, 0, t2), (0, 100, t3), (0, 0, t4), (0, 0, t5)] =
        ⟨.low, .low, a0, b0, m⟩) := by
  refine ⟨?_, ?_, ?_, ?_⟩
  · intro a0 b0 tA tB t1 t3 hA hB
    simp [isrRun, isrTick, coilStep, hA, hB]
  · intro a0 b0 tA tB t1 t3 hB hA
    simp [isrRun, isrTick, coilStep, hA, hB]
  · intro a0 b0 tA tB t1 t3 hA hB
    simp [isrRun, isrTick, coilStep, hA, hB]
  · intro a0 b0 t1 t2 t3 t4 t5 m hm
    refine ⟨?_, ?_, ?_, ?_, ?_, ?_⟩ <;> simp [isrRun, isrTick, coilStep, hm]

/-- Concrete instantiation of every part of `c2_decoder_timing_amended`. -/
theorem c2_decoder_timing_amended_witness :
    (isrRun ⟨.low, .low, 0, 0, .none⟩
        [(100, 0, 41000), (0, 0, 50000), (0, 100, 52000), (0, 0, 60000)] =
      ⟨.low, .rose, 50000, 60000, .cw⟩) ∧
    (isrRun ⟨.low, .low, 0, 0, .none⟩
        [(0, 100, 41000), (0, 0, 50000), (100, 0, 52000), (0, 0, 60000)] =
      ⟨.rose, .low, 60000, 50000, .cc⟩) ∧
    (isrRun ⟨.low, .low, 0, 0, .none⟩
        [(100, 0, 41000), (0, 0, 50000), (0, 100, 52000), (0, 0, 100000)] =
      ⟨.low, .rose, 50000, 100000, .none⟩) ∧
    isrRun ⟨.low, .low, 7, 9, .cw⟩
        [(100, 0, 1), (100, 0, 2), (0, 100, 3), (0, 0, 4), (0, 0, 5)] =
      ⟨.low, .low, 7, 9, .cw⟩ := by
  refine ⟨?_, ?_, ?_, ?_⟩
  · have h := c2_decoder_timing_amended.1 0 0 50000 60000 41000 52000
      (by decide) (by decide)
    simpa using h
  · have h := c2_decoder_timing_amended.2.1 0 0 60000 50000 41000 52000
      (by decide) (by decide)
    simpa using h
  · have h := c2_decoder_timing_amended.2.2.1 0 0 50000 100000 41000 52000
      (by decide) (by decide)
    simpa using h
  · exact (c2_decoder_timing_amended.2.2.2 7 9 1 2 3 4 5 .cw (by decide)).2.2.2.2.2

/-- Claim C3: in the reachable four-block store, `removeConfig(1)` succeeds
and `nConfigs` drops from 4 to 3, but the shift loop zeroes
`configPtr[cbi]` one iteration before using it as the `writeConfig` target
for the next shifted block, so block 3's data is written to EEPROM address 0
instead of its new slot: after the call the block at index 2 — previously
index 3 with entries (0x45, 0x46) — still holds the stale copy
(0x43, 0x44) of old block 2.  The claim's compaction property (shifted
blocks keep their entries) is violated by the code. -/
theorem c3_removeConfig_loses_shifted_block :
    fourBlock1.1 = true ∧ fourBlock2.1 = true ∧ fourBlock3.1 = true ∧
    nConfigs fourBlock3.2.1 = 4 ∧
    (readConfig fourBlock3.2.1 3 fourBlock3.2.2).2.entry = [(0x45, 0x46)] ∧
    afterRemove.1 = true ∧
    nConfigs afterRemove.2.1 = 3 ∧
    (readConfig afterRemove.2.1 2 afterRemove.2.2).2.entry = [(0x43, 0x44)] ∧
    ([((0x43 : Nat), (0x44 : Nat))] ≠ [(0x45, 0x46)]) := by decide

/-- Claim C5: the claim says a wheel/move magnitude above 255 is rejected.
The accumulator `val` is an `int8_t`, so the guard `val > 255` can never
fire: the spec `+300` parses successfully to the packed wheel code 0x802C,
whose value byte is 44 = 300 mod 256 — a silent wrap, not a rejection. -/
theorem c5_magnitude_overflow_not_rejected :
    parseW ['+', '3', '0', '0'] = 0x802C ∧ (0x802C : Nat) ≠ 0 ∧
    (0x802C : Nat) &&& 0xFF = 44 ∧ 300 % 256 = 44 := by decide

/-- Claim C9: `0xDA`/`0xD9` do parse to the factory-default keycodes, but
the hex conversion `hh < 'F' ? hh - 'A' + 10 : hh - 'a' + 10` sends an
uppercase `F` low digit into the lowercase branch (value −17 instead of 15),
so `0x0F` parses to keycode 0xEF, refuting the claim's "low byte equals the
two-digit hexadecimal value" for specs containing an uppercase F digit. -/
theorem c9_hex_uppercase_F_misparsed :
    parseK ['0', 'x', 'D', 'A'] = 0xDA ∧ parseK ['0', 'x', 'D', '9'] = 0xD9 ∧
    parseK ['0', 'x', '0', 'F'] = 0xEF ∧ (0xEF : Nat) ≠ 0x0F := by decide

/-- Claim C10: the keyboard spec `0x00` (keycode 0, no modifiers) parses to
the packed value 0, which is exactly the parsers' failure sentinel; any
`new` request whose parsing loop reaches such a pair (entry budget not yet
exhausted) is discarded whole, and in particular the two-word request
`k0x00 0x00` is rejected, so the entry can never be stored. -/
theorem c10_zero_keycode_unstorable :
    parseK ['0', 'x', '0', '0'] = 0 ∧
    (∀ (fuel n : Nat) (ws : List (List Char)) (acc : List (Nat × Nat)),
      n < 32 →
      newLoop (fuel + 1) (['k', '0', 'x', '0', '0'] :: ['0', 'x', '0', '0'] :: ws) n acc =
        Option.none) ∧
    onNew [['k', '0', 'x', '0', '0'], ['0', 'x', '0', '0']] = Option.none := by
  refine ⟨by decide, ?_, by decide⟩
  intro fuel n ws acc hn
  simp +decide [newLoop, Nat.not_le.mpr hn]

/-- Concrete instantiation of the quantified part of
`c10_zero_keycode_unstorable`. -/
theorem c10_zero_keycode_unstorable_witness :
    newLoop 17 (['k', '0', 'x', '0', '0'] :: ['0', 'x', '0', '0'] :: []) 0 [] =
      Option.none :=
  c10_zero_keycode_unstorable.2.1 16 0 [] [] (by decide)

/-- Claim C4, counterexample: the keyboard spec `s0x41` (shift + keycode
0x41) parses to 0x0241, renders as `s'A`, and re-parsing the rendering
yields 0x0041: the printable-character path cancels the shift modifier, so
the rendered text denotes a different modifier set than the original spec. -/
theorem c4_roundtrip_counterexample :
    parseK ['s', '0', 'x', '4', '1'] = 0x0241 ∧
    printConfigK 0x0241 = ['s', quoteC, 'A'] ∧
    parseK (printConfigK (parseK ['s', '0', 'x', '4', '1'])) = 0x41 ∧
    (0x41 : Nat) ≠ 0x0241 := by decide

/-- Claim C6, counterexample: on a fingerprint mismatch the synthesized
default selection is 1, not the 0 the claim states
(`header.selection = 1;` in `readHeader()`). -/
theorem c6_default_selection_not_zero :
    (readHeader blankEE).1 = false ∧ (readHeader blankEE).2.1.selection = 1 ∧
    (1 : Nat) ≠ 0 := by decide

/-- Claim C7, counterexample: `header.curConfig` has only SEVEN entries, so
`setConfig(7, 0)` is rejected even though block 0 is used — the claim's
combo range 0..7 is wrong. -/
theorem c7_combo7_rejected :
    defaultState.1.configPtr.getD 0 0 ≠ 0 ∧
    setConfig defaultState.1 7 0 defaultState.2 =
      (false, defaultState.1, defaultState.2) :=
  ⟨by decide, rfl⟩

/-- Claim C8, counterexample: `readConfig` never validates that the slot is
used: in the default store slot 1 is unused (`configPtr[1] = 0`) yet
`readConfig(1, cb)` returns true (reading from address 0), refuting the
claim's "fails for an unused slot". -/
theorem c8_unused_slot_read_succeeds :
    defaultState.1.configPtr.getD 1 0 = 0 ∧
    (readConfig defaultState.1 1 defaultState.2).1 = true := by decide

/-- The header `readHeader()` synthesizes on a fingerprint mismatch: note
selection 1, every button combination mapped to block 0, block 0's offset 26
(right after the header), remaining slots unused. -/
def defaultHeader : HeaderBlock :=
  ⟨0xC29D, 1, List.replicate 7 0, 26 :: List.replicate 7 0⟩

/-- The 31 bytes `readHeader()` persists when synthesizing the defaults: the
header followed by block 0 = one entry pair (count 1, up-arrow 0xDA,
down-arrow 0xD9). -/
def defaultImage : List Nat := headerBytes defaultHeader ++ [1, 0xDA, 0, 0xD9, 0]

lemma flat16_len : ∀ l : List Nat, ((l.map bytes16).flatten).length = 2 * l.length := by
  intro l
  induction l with
  | nil => rfl
  | cons hd tl ih =>
      simp only [List.map_cons, List.flatten_cons, List.length_append, ih, List.length_cons]
      simp only [bytes16, List.length_cons, List.length_nil]
      omega

lemma headerBytes_length (h : HeaderBlock) (hc : h.curConfig.length = 7)
    (hp : h.configPtr.length = 8) : (headerBytes h).length = 26 := by
  simp only [headerBytes, List.length_append, List.length_map, List.length_cons,
    List.length_nil, flat16_len, hc, hp]
  simp [bytes16]

/-- Claim C6, amended: on a fingerprint mismatch `readHeader()` synthesizes
and persists the defaults with selection 1 (not 0): every combination mapped
to block 0 and block 0 holding exactly the pair (0xDA, 0xD9) at offset 26,
leaving every byte beyond the 31-byte default image untouched, and returns
false; on a fingerprint match it leaves the store unchanged and returns
true. -/
theorem c6_readHeader_amended :
    (∀ e : EE, rd16 e 0 ≠ 0xC29D →
      (readHeader e).1 = false ∧
      (readHeader e).2.1 = defaultHeader ∧
      (∀ a, a < 31 → (readHeader e).2.2 a = defaultImage.getD a 0) ∧
      (∀ a, 31 ≤ a → (readHeader e).2.2 a = e a)) ∧
    (∀ e : EE, rd16 e 0 = 0xC29D → readHeader e = (true, deserHeader e, e)) := by
  constructor
  · intro e he
    have hne : ¬ (deserHeader e).fingerprint = 0xC29D := he
    have hrw : readHeader e =
        (false, defaultHeader,
          writeConfig defaultHeader 0 ⟨1, [(0xDA, 0xD9)]⟩ (writeHeader defaultHeader e)) := by
      simp only [readHeader, if_neg hne]
      rfl
    rw [hrw]
    refine ⟨rfl, rfl, ?_, ?_⟩
    · intro a ha
      interval_cases a <;> rfl
    · intro a ha
      simp only [writeConfig, writeHeader]
      have h26 : defaultHeader.configPtr.getD 0 0 = 26 := rfl
      have h5 : (configBytes ⟨1, [(0xDA, 0xD9)]⟩).length = 5 := rfl
      have hh : (headerBytes defaultHeader).length = 26 := rfl
      rw [if_neg (by omega)]
      rw [wrBytes_ge _ _ _ _ (by omega)]
      rw [wrBytes_ge _ _ _ _ (by omega)]
  · intro e he
    have hq : (deserHeader e).fingerprint = 0xC29D := he
    simp only [readHeader, if_pos hq]

/-- Concrete instantiation of `c6_readHeader_amended`: an erased EEPROM gets
the defaults (selection 1); re-loading the persisted default store finds the
fingerprint and leaves it unchanged. -/
theorem c6_readHeader_amended_witness :
    (readHeader blankEE).1 = false ∧
    (readHeader blankEE).2.1 = defaultHeader ∧
    readHeader defaultState.2 = (true, deserHeader defaultState.2, defaultState.2) :=
  ⟨((c6_readHeader_amended.1 blankEE (by decide)).1),
   ((c6_readHeader_amended.1 blankEE (by decide)).2.1),
   c6_readHeader_amended.2 defaultState.2 (by decide)⟩

/-- Claim C7, amended: the valid combination range is 0..6 — `curConfig` has
seven entries — not the claim's 0..7.  For combo < 7 and a used block
number n < 8, `setConfig` updates exactly that mapping, persists the header
(deserializing the written bytes yields the updated header; bytes past the
26-byte header are untouched) and returns true; otherwise it returns false
with header and EEPROM unchanged. -/
theorem c7_setConfig_amended :
    (∀ (h : HeaderBlock) (e : EE) (combo cbn : Nat),
      h.wf → combo < 7 → cbn < 8 → h.configPtr.getD cbn 0 ≠ 0 →
      (setConfig h combo cbn e).1 = true ∧
      (setConfig h combo cbn e).2.1.curConfig = h.curConfig.set combo cbn ∧
      (setConfig h combo cbn e).2.1.selection = h.selection ∧
      (setConfig h combo cbn e).2.1.configPtr = h.configPtr ∧
      deserHeader (setConfig h combo cbn e).2.2 = (setConfig h combo cbn e).2.1 ∧
      (∀ a, 26 ≤ a → (setConfig h combo cbn e).2.2 a = e a)) ∧
    (∀ (h : HeaderBlock) (e : EE) (combo cbn : Nat),
      7 ≤ combo ∨ 8 ≤ cbn ∨ h.configPtr.getD cbn 0 = 0 →
      setConfig h combo cbn e = (false, h, e)) := by
  constructor
  · intro h e combo cbn hw hcombo hcbn hused
    have hcond : ¬ (8 ≤ cbn ∨ 7 ≤ combo ∨ h.configPtr.getD cbn 0 = 0) := by
      push_neg
      exact ⟨by omega, by omega, hused⟩
    obtain ⟨hf, hs, hc, hcv, hp, hpv⟩ := hw
    have hw' : HeaderBlock.wf { h with curConfig := h.curConfig.set combo cbn } := by
      refine ⟨hf, hs, by simpa using hc, ?_, hp, hpv⟩
      intro v hv
      rcases List.mem_or_eq_of_mem_set hv with hv' | rfl
      · exact hcv v hv'
      · omega
    have hset : setConfig h combo cbn e =
        (true, { h with curConfig := h.curConfig.set combo cbn },
          writeHeader { h with curConfig := h.curConfig.set combo cbn } e) := by
      simp only [setConfig, if_neg hcond]
    rw [hset]
    refine ⟨rfl, rfl, rfl, rfl, ?_, ?_⟩
    · exact deserHeader_writeHeader _ e hw'
    · intro a ha
      have hlen : (headerBytes { h with curConfig := h.curConfig.set combo cbn }).length = 26 :=
        headerBytes_length _ (by simpa using hc) hp
      exact wrBytes_ge _ _ _ _ (by omega)
  · intro h e combo cbn hcond
    simp only [setConfig]
    rw [if_pos (by tauto)]

/-- Concrete instantiation of `c7_setConfig_amended`: mapping combination 3
to block 0 in the default store succeeds; an unused block is rejected with
the store untouched. -/
theorem c7_setConfig_amended_witness :
    (setConfig defaultState.1 3 0 defaultState.2).1 = true ∧
    (setConfig defaultState.1 3 0 defaultState.2).2.1.curConfig =
      defaultState.1.curConfig.set 3 0 ∧
    setConfig defaultState.1 0 1 defaultState.2 = (false, defaultState.1, defaultState.2) :=
  ⟨(c7_setConfig_amended.1 defaultState.1 defaultState.2 3 0 (by decide) (by decide)
      (by decide) (by decide)).1,
   (c7_setConfig_amended.1 defaultState.1 defaultState.2 3 0 (by decide) (by decide)
      (by decide) (by decide)).2.1,
   c7_setConfig_amended.2 defaultState.1 defaultState.2 0 1 (Or.inr (Or.inr (by decide)))⟩

/-- Claim C8, amended: for an out-of-range block number `readConfig` fails
as a no-op reporting zero entries; for every in-range number — used or not,
the unused case is NOT validated — it returns true with the entry count read
at the slot's offset and exactly that many entry pairs; reading back a block
just written with `writeConfig` returns exactly the written count and
entries. -/
theorem c8_readConfig_amended :
    (∀ (h : HeaderBlock) (n : Nat) (e : EE), 8 ≤ n →
      readConfig h n e = (false, ⟨0, []⟩)) ∧
    (∀ (h : HeaderBlock) (n : Nat) (e : EE), n < 8 →
      (readConfig h n e).1 = true ∧
      (readConfig h n e).2.nEntries = e (h.configPtr.getD n 0) ∧
      (readConfig h n e).2.entry.length = e (h.configPtr.getD n 0)) ∧
    (∀ (h : HeaderBlock) (cbn : Nat) (cb : ConfigBlock) (e : EE),
      cbn < 8 → cb.nEntries = cb.entry.length → cb.nEntries < 256 →
      (∀ q ∈ cb.entry, q.1 < 65536 ∧ q.2 < 65536) →
      readConfig h cbn (writeConfig h cbn cb e) = (true, cb)) := by
  refine ⟨?_, ?_, ?_⟩
  · intro h n e hn
    simp only [readConfig, if_pos hn]
  · intro h n e hn
    have hx : ¬ 8 ≤ n := by omega
    refine ⟨?_, ?_, ?_⟩ <;> simp [readConfig, hx]
  · intro h cbn cb e h1 h2 h3 h4
    exact readConfig_writeConfig h cbn cb e h1 h2 h3 h4

/-! ## Round-trip machinery for the action codec (claim C4)

The round-trip property is formalized as re-parse equality: rendering a
successfully parsed code and parsing the rendering again yields the same
packed code, hence the same type, modifier set and value/button set. -/

lemma and_two_pow_eq_ite (x i : Nat) :
    x &&& 2 ^ i = if x / 2 ^ i % 2 = 1 then 2 ^ i else 0 := by
  rw [Nat.and_two_pow, Nat.testBit_to_div_mod]
  by_cases h : x / 2 ^ i % 2 = 1 <;> simp [h]

lemma and_two_pow_ne_zero (x i : Nat) :
    (x &&& 2 ^ i ≠ 0) = (x / 2 ^ i % 2 = 1) := by
  rw [and_two_pow_eq_ite]
  by_cases h : x / 2 ^ i % 2 = 1 <;> simp [h]

lemma and_255_eq (x : Nat) : x &&& 255 = x % 256 := by
  have h := Nat.and_pow_two_sub_one_eq_mod x 8
  norm_num at h
  exact h

lemma and_127_eq (x : Nat) : x &&& 127 = x % 128 := by
  have h := Nat.and_pow_two_sub_one_eq_mod x 7
  norm_num at h
  exact h

lemma lor_byte {a b : Nat} (ha : a % 256 = 0) (hb : b < 256) : a ||| b = a + b := by
  have h := Nat.mul_add_lt_is_or (i := 8) (show b < 2 ^ 8 by norm_num; omega) (a / 256)
  norm_num at h
  have ha' : 256 * (a / 256) = a := by omega
  rw [ha'] at h
  omega

lemma u8_lt (x : Int) : u8 x < 256 := by
  unfold u8
  have h1 : x % 256 < 256 := Int.emod_lt_of_pos x (by norm_num)
  omega

lemma charOfNat_toNat {n : Nat} (h : n < 55296) : (Char.ofNat n).toNat = n := by
  have hv : n.isValidChar := Or.inl h
  simp [Char.ofNat, hv, Char.toNat, Char.ofNatAux, UInt32.toNat, BitVec.toNat_ofNatLt]

lemma isDigitC_digitChar {d : Nat} (h : d < 10) :
    isDigitC (Char.ofNat (48 + d)) = true := by
  simp only [isDigitC, charOfNat_toNat (show 48 + d < 55296 by omega)]
  simp
  omega

lemma headC_cons (c : Char) (l : List Char) : headC (c :: l) = c := rfl

lemma cast_sub48 (d : Nat) : ((48 + d : Nat) : Int) - 48 = (d : Int) := by push_cast; ring

lemma digitLoop_one {d1 : Nat} (hd : d1 < 10) (v : Int) (rest : List Char)
    (hr : isDigitC (headC rest) = false) :
    digitLoop 3 v (Char.ofNat (48 + d1)) rest = (i8 (v * 10 + d1), headC rest, rest.tail) := by
  simp only [digitLoop, charOfNat_toNat (show 48 + d1 < 55296 by omega), cast_sub48,
    hr, Bool.false_eq_true, if_false]

lemma digitLoop_two {d1 d2 : Nat} (hd1 : d1 < 10) (hd2 : d2 < 10) (v : Int) (rest : List Char)
    (hr : isDigitC (headC rest) = false) :
    digitLoop 3 v (Char.ofNat (48 + d1)) (Char.ofNat (48 + d2) :: rest) =
      (i8 (i8 (v * 10 + d1) * 10 + d2), headC rest, rest.tail) := by
  simp only [digitLoop, headC_cons, List.tail_cons,
    charOfNat_toNat (show 48 + d1 < 55296 by omega),
    charOfNat_toNat (show 48 + d2 < 55296 by omega), cast_sub48,
    isDigitC_digitChar hd2, if_true, hr, Bool.false_eq_true, if_false]

lemma digitLoop_three {d1 d2 d3 : Nat} (hd1 : d1 < 10) (hd2 : d2 < 10) (hd3 : d3 < 10)
    (v : Int) (rest : List Char) (hr : isDigitC (headC rest) = false) :
    digitLoop 3 v (Char.ofNat (48 + d1))
        (Char.ofNat (48 + d2) :: Char.ofNat (48 + d3) :: rest) =
      (i8 (i8 (i8 (v * 10 + d1) * 10 + d2) * 10 + d3), headC rest, rest.tail) := by
  simp only [digitLoop, headC_cons, List.tail_cons,
    charOfNat_toNat (show 48 + d1 < 55296 by omega),
    charOfNat_toNat (show 48 + d2 < 55296 by omega),
    charOfNat_toNat (show 48 + d3 < 55296 by omega), cast_sub48,
    isDigitC_digitChar hd2, isDigitC_digitChar hd3, if_true, hr, Bool.false_eq_true, if_false]

lemma decChars_lt10 {n : Nat} (h : n < 10) : decChars n = [Char.ofNat (48 + n)] := by
  unfold decChars decCharsAux
  rw [if_pos h]

lemma decChars_mid {n : Nat} (h1 : 10 ≤ n) (h2 : n < 100) :
    decChars n = [Char.ofNat (48 + n / 10), Char.ofNat (48 + n % 10)] := by
  have hx : ¬ n < 10 := by omega
  have hy : n / 10 < 10 := by omega
  simp [decChars, decCharsAux, hx, hy]

lemma decChars_big {n : Nat} (h1 : 100 ≤ n) (h2 : n < 1000) :
    decChars n =
      [Char.ofNat (48 + n / 100), Char.ofNat (48 + n / 10 % 10), Char.ofNat (48 + n % 10)] := by
  have hx : ¬ n < 10 := by omega
  have hy : ¬ n / 10 < 10 := by omega
  have hz : n / 10 / 10 < 10 := by omega
  have hz2 : n / 100 < 10 := by omega
  simp [decChars, decCharsAux, hx, hy, hz, hz2, Nat.div_div_eq_div_mul]

lemma i8_small {x : Int} (h0 : -128 ≤ x) (h1 : x ≤ 127) : i8 x = x := by
  unfold i8
  omega

lemma u8_ofNat {b : Nat} (h : b < 256) : u8 (b : Int) = b := by
  unfold u8
  omega

lemma i8_bounds (x : Int) : -128 ≤ i8 x ∧ i8 x ≤ 127 := by
  unfold i8
  omega

lemma parseNum_signedDec (b : Nat) (hb : b < 256) (rest : List Char)
    (hr : isDigitC (headC rest) = false) :
    parseNum (headC (signedDec b)) ((signedDec b).tail ++ rest) =
      some (b, headC rest, rest.tail) := by
  by_cases hs : b < 128
  · have hsd : signedDec b = '+' :: decChars b := by
      unfold signedDec
      rw [Nat.mod_eq_of_lt hb, if_pos hs]
    rw [hsd, headC_cons, List.tail_cons]
    rcases Nat.lt_or_ge b 10 with h10 | h10
    · rw [decChars_lt10 h10]
      simp +decide only [List.cons_append, List.nil_append, parseNum, headC_cons,
        List.tail_cons, isDigitC_digitChar h10, if_true,
        digitLoop_one h10 0 rest hr]
      rw [if_neg (by have := i8_bounds ((0 : Int) * 10 + ((b : Nat) : Int)); omega)]
      simp only [Option.some.injEq, Prod.mk.injEq, and_true, true_and]
      simp only [i8, u8]
      omega
    · rcases Nat.lt_or_ge b 100 with h100 | h100
      · rw [decChars_mid h10 h100]
        simp +decide only [List.cons_append, List.nil_append, parseNum, headC_cons,
          List.tail_cons, isDigitC_digitChar (show b / 10 < 10 by omega), if_true,
          digitLoop_two (show b / 10 < 10 by omega) (show b % 10 < 10 by omega) 0 rest hr]
        rw [if_neg (by
          have := i8_bounds (i8 ((0 : Int) * 10 + ((b / 10 : Nat) : Int)) * 10 +
            ((b % 10 : Nat) : Int))
          omega)]
        simp only [Option.some.injEq, Prod.mk.injEq, and_true, true_and]
        simp only [i8, u8]
        omega
      · rw [decChars_big h100 (by omega)]
        simp +decide only [List.cons_append, List.nil_append, parseNum, headC_cons,
          List.tail_cons, isDigitC_digitChar (show b / 100 < 10 by omega), if_true,
          digitLoop_three (show b / 100 < 10 by omega) (show b / 10 % 10 < 10 by omega)
            (show b % 10 < 10 by omega) 0 rest hr]
        rw [if_neg (by
          have := i8_bounds (i8 (i8 ((0 : Int) * 10 + ((b / 100 : Nat) : Int)) * 10 +
            ((b / 10 % 10 : Nat) : Int)) * 10 + ((b % 10 : Nat) : Int))
          omega)]
        have s1 : i8 ((0 : Int) * 10 + ((b / 100 : Nat) : Int)) =
            (0 : Int) * 10 + ((b / 100 : Nat) : Int) := i8_small (by omega) (by omega)
        have s2 : i8 (((0 : Int) * 10 + ((b / 100 : Nat) : Int)) * 10 +
            ((b / 10 % 10 : Nat) : Int)) = ((0 : Int) * 10 + ((b / 100 : Nat) : Int)) * 10 +
            ((b / 10 % 10 : Nat) : Int) := i8_small (by omega) (by omega)
        rw [s1, s2]
        have hZ : (((0 : Int) * 10 + ((b / 100 : Nat) : Int)) * 10 +
            ((b / 10 % 10 : Nat) : Int)) * 10 + ((b % 10 : Nat) : Int) = ((b : Nat) : Int) := by
          omega
        rw [hZ, i8_small (by omega) (by omega), u8_ofNat hb]
  · have hsd : signedDec b = '-' :: decChars (256 - b) := by
      unfold signedDec
      rw [Nat.mod_eq_of_lt hb, if_neg (by omega)]
    rw [hsd, headC_cons, List.tail_cons]
    rcases Nat.lt_or_ge (256 - b) 10 with h10 | h10
    · rw [decChars_lt10 h10]
      simp +decide only [List.cons_append, List.nil_append, parseNum, headC_cons,
        List.tail_cons, isDigitC_digitChar h10, if_true,
        digitLoop_one h10 0 rest hr]
      rw [if_neg (by have := i8_bounds ((0 : Int) * 10 + ((256 - b : Nat) : Int)); omega)]
      rw [if_neg (show ¬False from fun hf => hf)]
      simp only [Option.some.injEq, Prod.mk.injEq, and_true, true_and]
      simp only [i8, u8]
      omega
    · rcases Nat.lt_or_ge (256 - b) 100 with h100 | h100
      · rw [decChars_mid h10 h100]
        simp +decide only [List.cons_append, List.nil_append, parseNum, headC_cons,
          List.tail_cons, isDigitC_digitChar (show (256 - b) / 10 < 10 by omega), if_true,
          digitLoop_two (show (256 - b) / 10 < 10 by omega) (show (256 - b) % 10 < 10 by omega)
            0 rest hr]
        rw [if_neg (by
          have := i8_bounds (i8 ((0 : Int) * 10 + (((256 - b) / 10 : Nat) : Int)) * 10 +
            (((256 - b) % 10 : Nat) : Int))
          omega)]
        have s1 : i8 ((0 : Int) * 10 + (((256 - b) / 10 : Nat) : Int)) =
            (0 : Int) * 10 + (((256 - b) / 10 : Nat) : Int) := i8_small (by omega) (by omega)
        rw [s1]
        rw [if_neg (show ¬False from fun hf => hf)]
        simp only [Option.some.injEq, Prod.mk.injEq, and_true, true_and]
        simp only [i8, u8]
        omega
      · rw [decChars_big h100 (by omega)]
        simp +decide only [List.cons_append, List.nil_append, parseNum, headC_cons,
          List.tail_cons, isDigitC_digitChar (show (256 - b) / 100 < 10 by omega), if_true,
          digitLoop_three (show (256 - b) / 100 < 10 by omega)
            (show (256 - b) / 10 % 10 < 10 by omega) (show (256 - b) % 10 < 10 by omega)
            0 rest hr]
        rw [if_neg (by
          have := i8_bounds (i8 (i8 ((0 : Int) * 10 + (((256 - b) / 100 : Nat) : Int)) * 10 +
            (((256 - b) / 10 % 10 : Nat) : Int)) * 10 + (((256 - b) % 10 : Nat) : Int))
          omega)]
        have s1 : i8 ((0 : Int) * 10 + (((256 - b) / 100 : Nat) : Int)) =
            (0 : Int) * 10 + (((256 - b) / 100 : Nat) : Int) := i8_small (by omega) (by omega)
        have s2 : i8 (((0 : Int) * 10 + (((256 - b) / 100 : Nat) : Int)) * 10 +
            (((256 - b) / 10 % 10 : Nat) : Int)) =
            ((0 : Int) * 10 + (((256 - b) / 100 : Nat) : Int)) * 10 +
            (((256 - b) / 10 % 10 : Nat) : Int) := i8_small (by omega) (by omega)
        rw [s1, s2]
        rw [if_neg (show ¬False from fun hf => hf)]
        have hZ : (((0 : Int) * 10 + (((256 - b) / 100 : Nat) : Int)) * 10 +
            (((256 - b) / 10 % 10 : Nat) : Int)) * 10 + (((256 - b) % 10 : Nat) : Int) =
            ((256 - b : Nat) : Int) := by
          omega
        rw [hZ]
        have hfin : u8 (-(i8 ((256 - b : Nat) : Int))) = b := by
          simp only [i8, u8]
          omega
        rw [hfin]

lemma scanCASG_append : ∀ (fs : List Char) (fuel ans : Nat) (nc0 c : Char) (cs : List Char),
    fs.length < fuel → (∀ ch ∈ fs, (kbFlagMask ch).isSome) → kbFlagMask c = Option.none →
    scanCASG fuel ans nc0 (fs ++ c :: cs) = (ans ||| flagOrK fs, c, cs) := by
  intro fs
  induction fs with
  | nil =>
      intro fuel ans nc0 c cs hf _ hc
      rcases fuel with _ | fuel
      · omega
      simp only [List.nil_append, scanCASG, headC_cons, List.tail_cons, hc]
      simp [flagOrK]
  | cons c0 fs ih =>
      intro fuel ans nc0 c cs hf hmem hc
      rcases fuel with _ | fuel
      · simp at hf
      obtain ⟨m, hm⟩ := Option.isSome_iff_exists.mp (hmem c0 (by simp))
      simp only [List.cons_append, scanCASG, headC_cons, List.tail_cons, hm]
      rw [ih fuel (ans ||| m) c0 c cs (by simpa using hf)
        (fun ch hch => hmem ch (by simp [hch])) hc]
      simp [flagOrK, hm, Nat.lor_assoc]

lemma casg_members (v : Nat) : ∀ ch ∈ casgChars v, (kbFlagMask ch).isSome := by
  intro ch hch
  unfold casgChars at hch
  split_ifs at hch <;> simp at hch <;>
    rcases hch with rfl | rfl | rfl | rfl <;> decide

lemma casg_len (v : Nat) : (casgChars v).length ≤ 4 := by
  unfold casgChars
  split_ifs <;> simp

lemma flagOrK_casg (v : Nat) :
    flagOrK (casgChars v) =
      (if v &&& 0x0800 ≠ 0 then 0x0800 else 0) + (if v &&& 0x0400 ≠ 0 then 0x0400 else 0) +
        (if v &&& 0x0200 ≠ 0 then 0x0200 else 0) + (if v &&& 0x0100 ≠ 0 then 0x0100 else 0) := by
  unfold casgChars
  split_ifs <;> rfl

lemma flagSum_shape (base m b : Nat) (hbase : base % 4096 = 0) (hm : m < 16) (hb : b < 256) :
    (if (base + 256 * m + b) &&& 0x0800 ≠ 0 then 0x0800 else 0) +
      (if (base + 256 * m + b) &&& 0x0400 ≠ 0 then 0x0400 else 0) +
      (if (base + 256 * m + b) &&& 0x0200 ≠ 0 then 0x0200 else 0) +
      (if (base + 256 * m + b) &&& 0x0100 ≠ 0 then 0x0100 else 0) = 256 * m := by
  simp only [show (0x0800 : Nat) = 2 ^ 11 from rfl, show (0x0400 : Nat) = 2 ^ 10 from rfl,
    show (0x0200 : Nat) = 2 ^ 9 from rfl, show (0x0100 : Nat) = 2 ^ 8 from rfl,
    and_two_pow_ne_zero]
  split_ifs <;> omega

lemma signedDec_cons (b : Nat) :
    signedDec b = headC (signedDec b) :: (signedDec b).tail := by
  unfold signedDec
  split_ifs <;> rfl

lemma signedDec_head_flag (b : Nat) : kbFlagMask (headC (signedDec b)) = Option.none := by
  unfold signedDec
  split_ifs <;> rfl

lemma signedDec_head_digit (b : Nat) : isDigitC (headC (signedDec b)) = false := by
  unfold signedDec
  split_ifs <;> rfl

lemma parseW_roundtrip_core (m b : Nat) (hm : m < 16) (hb : b < 256) :
    parseW (printConfigW (0x8000 + 256 * m + b)) = 0x8000 + 256 * m + b := by
  have hpb : (0x8000 + 256 * m + b) &&& 255 = b := by rw [and_255_eq]; omega
  unfold printConfigW
  rw [show ((0x8000 + 256 * m + b) &&& 0xFF) = b from hpb]
  unfold parseW
  rw [signedDec_cons b]
  rw [scanCASG_append (casgChars (0x8000 + 256 * m + b)) 5 0x8000 nulC _ _
    (lt_of_le_of_lt (casg_len _) (by norm_num)) (casg_members _) (signedDec_head_flag b)]
  simp only
  rw [← List.append_nil ((signedDec b).tail)]
  rw [parseNum_signedDec b hb [] (by decide)]
  simp only
  rw [flagOrK_casg, flagSum_shape 0x8000 m b (by norm_num) hm hb]
  have h1 : (0x8000 : Nat) ||| 256 * m = 0x8000 + 256 * m := by
    have h := Nat.mul_add_lt_is_or (i := 12) (show 256 * m < 2 ^ 12 by omega) 8
    norm_num at h ⊢
    omega
  rw [h1, lor_byte (by omega) hb]

/-- Concrete instantiation of `c8_readConfig_amended`. -/
theorem c8_readConfig_amended_witness :
    readConfig defaultState.1 9 defaultState.2 = (false, ⟨0, []⟩) ∧
    (readConfig defaultState.1 1 defaultState.2).1 = true ∧
    readConfig defaultState.1 0 (writeConfig defaultState.1 0 ⟨1, [(7, 9)]⟩ defaultState.2) =
      (true, ⟨1, [(7, 9)]⟩) :=
  ⟨c8_readConfig_amended.1 defaultState.1 9 defaultState.2 (by decide),
   (c8_readConfig_amended.2.1 defaultState.1 1 defaultState.2 (by decide)).1,
   c8_readConfig_amended.2.2 defaultState.1 0 ⟨1, [(7, 9)]⟩ defaultState.2 (by decide)
     (by decide) (by decide) (by decide)⟩


lemma kbFlagMask_cases {c : Char} {m : Nat} (h : kbFlagMask c = some m) :
    m = 0x0800 ∨ m = 0x0400 ∨ m = 0x0200 ∨ m = 0x0100 := by
  unfold kbFlagMask at h
  split_ifs at h <;> simp_all

set_option maxRecDepth 4000 in
lemma orMask : ∀ base ∈ [0, 0x8000, 0x9000, 0xA000, 0xB000], ∀ m, m < 16 → ∀ w, w < 16 →
    (base + 256 * m) ||| (256 * w) = base + 256 * (m ||| w) ∧ m ||| w < 16 := by decide

lemma scanCASG_shape (base : Nat)
    (hbase : base ∈ [0, 0x8000, 0x9000, 0xA000, 0xB000]) :
    ∀ (fuel ans : Nat) (nc : Char) (sp : List Char), (∃ m, m < 16 ∧ ans = base + 256 * m) →
      ∃ m, m < 16 ∧ (scanCASG fuel ans nc sp).1 = base + 256 * m := by
  intro fuel
  induction fuel with
  | zero => intro ans nc sp h; exact h
  | succ fuel ih =>
      intro ans nc sp h
      obtain ⟨m, hm, rfl⟩ := h
      rcases hF : kbFlagMask (headC sp) with _ | msk
      · simp only [scanCASG, hF]
        exact ⟨m, hm, rfl⟩
      · have hw : ∃ w, w < 16 ∧ msk = 256 * w := by
          rcases kbFlagMask_cases hF with rfl | rfl | rfl | rfl
          · exact ⟨8, by norm_num⟩
          · exact ⟨4, by norm_num⟩
          · exact ⟨2, by norm_num⟩
          · exact ⟨1, by norm_num⟩
        obtain ⟨w, hw16, rfl⟩ := hw
        obtain ⟨heq, hlt⟩ := orMask base hbase m hm w hw16
        have hstep : scanCASG (fuel + 1) (base + 256 * m) nc sp =
            scanCASG fuel (base + 256 * (m ||| w)) (headC sp) sp.tail := by
          simp only [scanCASG, hF, heq]
        rw [hstep]
        exact ih _ _ _ ⟨m ||| w, hlt, rfl⟩

lemma parseNum_byte_lt {nc : Char} {sp : List Char} {r : Nat × Char × List Char}
    (h : parseNum nc sp = some r) : r.1 < 256 := by
  simp only [parseNum] at h
  split_ifs at h <;>
    (rw [← Option.some.inj h]; exact u8_lt _)

lemma parseW_shape (s : List Char) :
    parseW s = 0 ∨ ∃ m b, m < 16 ∧ b < 256 ∧ parseW s = 0x8000 + 256 * m + b := by
  obtain ⟨m, hm, hs⟩ :=
    scanCASG_shape 0x8000 (by norm_num) 5 0x8000 nulC s ⟨0, by norm_num, by norm_num⟩
  rcases hP : parseNum (scanCASG 5 0x8000 nulC s).2.1 (scanCASG 5 0x8000 nulC s).2.2
    with _ | r
  · left; simp only [parseW, hP]
  · right
    refine ⟨m, r.1, hm, parseNum_byte_lt hP, ?_⟩
    simp only [parseW, hP]
    rw [hs, lor_byte (by omega) (parseNum_byte_lt hP)]

lemma parseW_roundtrip (s : List Char) (h : parseW s ≠ 0) :
    parseW (printConfigW (parseW s)) = parseW s := by
  rcases parseW_shape s with h0 | ⟨m, b, hm, hb, he⟩
  · exact absurd h0 h
  · rw [he]; exact parseW_roundtrip_core m b hm hb

set_option maxRecDepth 8000 in
lemma andFDFF : ∀ m, m < 16 → ∀ c, c < 256 →
    (256 * m + c) &&& 0xFDFF = 256 * (m &&& 13) + c ∧ m &&& 13 < 16 := by decide

lemma isHex_hexDigitChar : ∀ n, n < 16 → isHexDigitC (hexDigitChar n) = true := by decide

set_option maxRecDepth 8000 in
lemma hexByte_round : ∀ b, b < 256 → b % 16 ≠ 15 →
    hexByte (hexDigitChar (b / 16)) (hexDigitChar (b % 16)) = b := by decide

lemma parseK_shape (s : List Char) :
    parseK s = 0 ∨ ∃ m b, m < 16 ∧ b < 256 ∧ parseK s = 256 * m + b := by
  obtain ⟨m0, hm0, hs⟩ :=
    scanCASG_shape 0 (by norm_num) 5 0 nulC s ⟨0, by norm_num, by norm_num⟩
  simp only [parseK]
  split_ifs with h1 h2 h3 h4 h5
  · right
    have hct : 32 ≤ (headC (scanCASG 5 0 nulC s).2.2).toNat ∧
        (headC (scanCASG 5 0 nulC s).2.2).toNat ≤ 126 := by
      simpa [isPrintableC, Bool.and_eq_true, decide_eq_true_eq] using h2
    refine ⟨m0 &&& 13, (headC (scanCASG 5 0 nulC s).2.2).toNat,
      (andFDFF m0 hm0 0 (by norm_num)).2, by omega, ?_⟩
    rw [hs]
    simp only [Nat.zero_add]
    have h7 : (headC (scanCASG 5 0 nulC s).2.2).toNat &&& 0x7F =
        (headC (scanCASG 5 0 nulC s).2.2).toNat := by
      rw [and_127_eq]; exact Nat.mod_eq_of_lt (by omega)
    rw [h7, lor_byte (by omega) (by omega)]
    exact (andFDFF m0 hm0 _ (by omega)).1
  · left; rfl
  · right
    refine ⟨m0, hexByte (headC (scanCASG 5 0 nulC s).2.2.tail)
      (headC (scanCASG 5 0 nulC s).2.2.tail.tail), hm0, u8_lt _, ?_⟩
    rw [hs]
    simp only [Nat.zero_add]
    exact lor_byte (by omega) (u8_lt _)
  · left; rfl
  · left; rfl
  · left; rfl

lemma parseK_roundtrip_quote (m b : Nat) (hm : m < 16) (hmb : m &&& 13 = m)
    (hb1 : 33 ≤ b) (hb2 : b ≤ 126) :
    parseK (printConfigK (256 * m + b)) = 256 * m + b := by
  have hvb : (256 * m + b) &&& 0xFF = b := by rw [and_255_eq]; omega
  have hprint : printConfigK (256 * m + b) =
      casgChars (256 * m + b) ++ [quoteC, Char.ofNat b] := by
    simp only [printConfigK, hvb, if_pos (And.intro hb1 hb2)]
  rw [hprint]
  have hct : (Char.ofNat b).toNat = b := charOfNat_toNat (by omega)
  have hpr : isPrintableC (Char.ofNat b) = true := by
    simp only [isPrintableC, hct, Bool.and_eq_true, decide_eq_true_eq]
    omega
  unfold parseK
  rw [scanCASG_append (casgChars (256 * m + b)) 5 0 nulC quoteC [Char.ofNat b]
    (lt_of_le_of_lt (casg_len _) (by norm_num)) (casg_members _) (by decide)]
  simp only
  simp only [headC_cons]
  rw [if_pos trivial, if_pos hpr, hct]
  have h7 : b &&& 0x7F = b := by rw [and_127_eq]; exact Nat.mod_eq_of_lt (by omega)
  rw [h7, Nat.zero_or, flagOrK_casg]
  have hfs := flagSum_shape 0 m b (by norm_num) hm (by omega)
  simp only [Nat.zero_add] at hfs
  rw [hfs, lor_byte (by omega) (by omega)]
  rw [(andFDFF m hm b (by omega)).1, hmb]

lemma parseK_roundtrip_hex (m b : Nat) (hm : m < 16) (hb16 : 16 ≤ b) (hb : b < 256)
    (hlo : b % 16 ≠ 15) (hnp : ¬(33 ≤ b ∧ b ≤ 126)) :
    parseK (printConfigK (256 * m + b)) = 256 * m + b := by
  have hvb : (256 * m + b) &&& 0xFF = b := by rw [and_255_eq]; omega
  have hhx : hexChars b = [hexDigitChar (b / 16), hexDigitChar (b % 16)] := by
    unfold hexChars; rw [if_neg (by omega)]
  have hprint : printConfigK (256 * m + b) =
      casgChars (256 * m + b) ++ '0' :: 'x' :: [hexDigitChar (b / 16), hexDigitChar (b % 16)] := by
    simp only [printConfigK, hvb, if_neg hnp, hhx]
  rw [hprint]
  unfold parseK
  rw [scanCASG_append (casgChars (256 * m + b)) 5 0 nulC '0'
    ('x' :: [hexDigitChar (b / 16), hexDigitChar (b % 16)])
    (lt_of_le_of_lt (casg_len _) (by norm_num)) (casg_members _) (by decide)]
  simp only
  simp only [headC_cons, List.tail_cons]
  rw [if_pos trivial,
    if_pos (And.intro (Or.inl trivial) (by simp)),
    if_pos (And.intro (isHex_hexDigitChar (b / 16) (by omega))
      (isHex_hexDigitChar (b % 16) (by omega)))]
  rw [if_neg (show ¬(('0' : Char) = quoteC) from by decide)]
  rw [hexByte_round b hb hlo, Nat.zero_or, flagOrK_casg]
  have hfs := flagSum_shape 0 m b (by norm_num) hm hb
  simp only [Nat.zero_add] at hfs
  rw [hfs, lor_byte (by omega) hb]

lemma parseK_roundtrip (s : List Char) (h : parseK s ≠ 0)
    (hk : kbRoundTrippable (parseK s)) :
    parseK (printConfigK (parseK s)) = parseK s := by
  rcases parseK_shape s with h0 | ⟨m, b, hm, hb, he⟩
  · exact absurd h0 h
  rw [he] at hk ⊢
  unfold kbRoundTrippable at hk
  have hpb : (256 * m + b) % 256 = b := by omega
  have hpd : (256 * m + b) / 512 = m / 2 := by omega
  rw [hpb, hpd] at hk
  rcases hk with ⟨h1, h2, h3⟩ | ⟨hnp, h4, h5⟩
  · have hmb : m &&& 13 = m := by
      interval_cases m <;> first | omega | rfl
    exact parseK_roundtrip_quote m b hm hmb h1 h2
  · exact parseK_roundtrip_hex m b hm h4 hb h5 hnp

lemma mFlagMask_cases {c : Char} {bf : Bool} {mk : Nat}
    (h : mFlagMask c = some (bf, mk)) :
    (bf = true ∧ (mk = 0x0800 ∨ mk = 0x0400 ∨ mk = 0x0200 ∨ mk = 0x0100)) ∨
      (bf = false ∧ (mk = 0x0400 ∨ mk = 0x0200 ∨ mk = 0x0100)) := by
  unfold mFlagMask at h
  split_ifs at h <;> simp_all

lemma scanM_append : ∀ (fs : List Char) (fuel : Nat) (ans : Nat × Nat) (nc0 c : Char)
    (cs : List Char), fs.length < fuel → (∀ ch ∈ fs, (mFlagMask ch).isSome) →
    mFlagMask c = Option.none →
    scanM fuel ans nc0 (fs ++ c :: cs) =
      ((ans.1 ||| flagOrMX fs, ans.2 ||| flagOrMY fs), c, cs) := by
  intro fs
  induction fs with
  | nil =>
      intro fuel ans nc0 c cs hf _ hc
      rcases fuel with _ | fuel
      · omega
      simp only [List.nil_append, scanM, headC_cons, List.tail_cons, hc]
      simp [flagOrMX, flagOrMY]
  | cons c0 fs ih =>
      intro fuel ans nc0 c cs hf hmem hc
      rcases fuel with _ | fuel
      · simp at hf
      obtain ⟨p, hp⟩ := Option.isSome_iff_exists.mp (hmem c0 (by simp))
      rcases p with ⟨bf, mk⟩
      cases bf
      · simp only [List.cons_append, scanM, headC_cons, List.tail_cons, hp]
        rw [ih fuel (ans.1 ||| mk, ans.2) c0 c cs (by simpa using hf)
          (fun ch hch => hmem ch (by simp [hch])) hc]
        simp [flagOrMX, flagOrMY, hp, Nat.lor_assoc]
      · simp only [List.cons_append, scanM, headC_cons, List.tail_cons, hp]
        rw [ih fuel (ans.1, ans.2 ||| mk) c0 c cs (by simpa using hf)
          (fun ch hch => hmem ch (by simp [hch])) hc]
        simp [flagOrMX, flagOrMY, hp, Nat.lor_assoc]

lemma orMask9 : ∀ m, m < 8 → ∀ w, w < 8 →
    (0x9000 + 256 * m) ||| 256 * w = 0x9000 + 256 * (m ||| w) ∧ m ||| w < 8 := by decide

lemma scanM_shape : ∀ (fuel : Nat) (ans : Nat × Nat) (nc : Char) (sp : List Char),
    (∃ mx, mx < 8 ∧ ans.1 = 0x9000 + 256 * mx) →
    (∃ my, my < 16 ∧ ans.2 = 0xA000 + 256 * my) →
    (∃ mx, mx < 8 ∧ (scanM fuel ans nc sp).1.1 = 0x9000 + 256 * mx) ∧
      (∃ my, my < 16 ∧ (scanM fuel ans nc sp).1.2 = 0xA000 + 256 * my) := by
  intro fuel
  induction fuel with
  | zero => intro ans nc sp h1 h2; exact ⟨h1, h2⟩
  | succ fuel ih =>
      intro ans nc sp h1 h2
      obtain ⟨mx, hmx, hx⟩ := h1
      obtain ⟨my, hmy, hy⟩ := h2
      rcases hF : mFlagMask (headC sp) with _ | p
      · simp only [scanM, hF]
        exact ⟨⟨mx, hmx, hx⟩, ⟨my, hmy, hy⟩⟩
      · rcases p with ⟨bf, mk⟩
        rcases mFlagMask_cases hF with ⟨hb, hmk⟩ | ⟨hb, hmk⟩
        · subst hb
          have hw : ∃ w, w < 16 ∧ mk = 256 * w := by
            rcases hmk with rfl | rfl | rfl | rfl
            · exact ⟨8, by norm_num⟩
            · exact ⟨4, by norm_num⟩
            · exact ⟨2, by norm_num⟩
            · exact ⟨1, by norm_num⟩
          obtain ⟨w, hw16, rfl⟩ := hw
          obtain ⟨heq, hlt⟩ := orMask 0xA000 (by norm_num) my hmy w hw16
          have hstep : scanM (fuel + 1) ans nc sp =
              scanM fuel (ans.1, ans.2 ||| 256 * w) (headC sp) sp.tail := by
            simp only [scanM, hF]
          rw [hstep]
          exact ih (ans.1, ans.2 ||| 256 * w) _ _ ⟨mx, hmx, hx⟩
            ⟨my ||| w, hlt, by rw [hy, heq]⟩
        · subst hb
          have hw : ∃ w, w < 8 ∧ mk = 256 * w := by
            rcases hmk with rfl | rfl | rfl
            · exact ⟨4, by norm_num⟩
            · exact ⟨2, by norm_num⟩
            · exact ⟨1, by norm_num⟩
          obtain ⟨w, hw8, rfl⟩ := hw
          obtain ⟨heq, hlt⟩ := orMask9 mx hmx w hw8
          have hstep : scanM (fuel + 1) ans nc sp =
              scanM fuel (ans.1 ||| 256 * w, ans.2) (headC sp) sp.tail := by
            simp only [scanM, hF]
          rw [hstep]
          exact ih (ans.1 ||| 256 * w, ans.2) _ _
            ⟨mx ||| w, hlt, by rw [hx, heq]⟩ ⟨my, hmy, hy⟩

lemma parseM_shape (s : List Char) :
    parseM s = 0 ∨ ∃ mx bx my c, mx < 8 ∧ bx < 256 ∧ my < 16 ∧ c < 256 ∧
      parseM s = (0x9000 + 256 * mx + bx) * 65536 + (0xA000 + 256 * my + c) := by
  obtain ⟨⟨mx, hmx, hx⟩, ⟨my, hmy, hy⟩⟩ :=
    scanM_shape 8 (0x9000, 0xA000) nulC s ⟨0, by norm_num, by norm_num⟩
      ⟨0, by norm_num, by norm_num⟩
  rcases hP0 : parseNum (scanM 8 (0x9000, 0xA000) nulC s).2.1
      (scanM 8 (0x9000, 0xA000) nulC s).2.2 with _ | r0
  · left; simp only [parseM, hP0]
  rcases hP1 : parseNum r0.2.1 r0.2.2 with _ | r1
  · left; simp only [parseM, hP0, hP1]
  right
  refine ⟨mx, r0.1, my, r1.1, hmx, parseNum_byte_lt hP0, hmy, parseNum_byte_lt hP1, ?_⟩
  simp only [parseM, hP0, hP1]
  rw [hx, hy, lor_byte (by omega) (parseNum_byte_lt hP0),
    lor_byte (by omega) (parseNum_byte_lt hP1)]

lemma casgM_members (v : Nat) : ∀ ch ∈ casgChars v, (mFlagMask ch).isSome := by
  intro ch hch
  unfold casgChars at hch
  split_ifs at hch <;> simp at hch <;>
    rcases hch with rfl | rfl | rfl | rfl <;> decide

lemma lmr1_members (v : Nat) : ∀ ch ∈ lmrChars1 v, (mFlagMask ch).isSome := by
  intro ch hch
  unfold lmrChars1 at hch
  split_ifs at hch <;> simp at hch <;>
    rcases hch with rfl | rfl | rfl <;> decide

lemma lmr1_len (v : Nat) : (lmrChars1 v).length ≤ 3 := by
  unfold lmrChars1
  split_ifs <;> simp

lemma flagOrMX_append (l1 l2 : List Char) :
    flagOrMX (l1 ++ l2) = flagOrMX l1 ||| flagOrMX l2 := by
  induction l1 with
  | nil => simp [flagOrMX]
  | cons c cs ih => simp [flagOrMX, ih, Nat.lor_assoc]

lemma flagOrMY_append (l1 l2 : List Char) :
    flagOrMY (l1 ++ l2) = flagOrMY l1 ||| flagOrMY l2 := by
  induction l1 with
  | nil => simp [flagOrMY]
  | cons c cs ih => simp [flagOrMY, ih, Nat.lor_assoc]

lemma flagOrMY_casg (v : Nat) : flagOrMY (casgChars v) = flagOrK (casgChars v) := by
  unfold casgChars
  split_ifs <;> rfl

lemma flagOrMX_casg (v : Nat) : flagOrMX (casgChars v) = 0 := by
  unfold casgChars
  split_ifs <;> rfl

lemma flagOrMY_lmr1 (v : Nat) : flagOrMY (lmrChars1 v) = 0 := by
  unfold lmrChars1
  split_ifs <;> rfl

lemma flagOrMX_lmr1 (v : Nat) :
    flagOrMX (lmrChars1 v) =
      (if v &&& 0x0400 ≠ 0 then 0x0400 else 0) + (if v &&& 0x0200 ≠ 0 then 0x0200 else 0) +
        (if v &&& 0x0100 ≠ 0 then 0x0100 else 0) := by
  unfold lmrChars1
  split_ifs <;> rfl

lemma lmrSum_shape (base m b : Nat) (hbase : base % 4096 = 0) (hm : m < 8) (hb : b < 256) :
    (if (base + 256 * m + b) &&& 0x0400 ≠ 0 then 0x0400 else 0) +
      (if (base + 256 * m + b) &&& 0x0200 ≠ 0 then 0x0200 else 0) +
      (if (base + 256 * m + b) &&& 0x0100 ≠ 0 then 0x0100 else 0) = 256 * m := by
  simp only [show (0x0400 : Nat) = 2 ^ 10 from rfl, show (0x0200 : Nat) = 2 ^ 9 from rfl,
    show (0x0100 : Nat) = 2 ^ 8 from rfl, and_two_pow_ne_zero]
  split_ifs <;> omega

lemma signedDec_head_mflag (b : Nat) : mFlagMask (headC (signedDec b)) = Option.none := by
  unfold signedDec
  split_ifs <;> rfl

lemma base_lor_M : ∀ m, m < 16 →
    (0x9000 ||| 256 * m = 0x9000 + 256 * m) ∧ (0xA000 ||| 256 * m = 0xA000 + 256 * m) := by
  decide

lemma parseM_roundtrip_core (mx bx my c : Nat) (hmx : mx < 8) (hbx : bx < 256)
    (hmy : my < 16) (hc : c < 256) :
    parseM (printConfigM (0x9000 + 256 * mx + bx) (0xA000 + 256 * my + c)) =
      (0x9000 + 256 * mx + bx) * 65536 + (0xA000 + 256 * my + c) := by
  have hax : (0x9000 + 256 * mx + bx) &&& 0xFF = bx := by rw [and_255_eq]; omega
  have hay : (0xA000 + 256 * my + c) &&& 0xFF = c := by rw [and_255_eq]; omega
  unfold printConfigM
  rw [hax, hay, signedDec_cons bx]
  rw [List.append_assoc]
  simp only [List.cons_append]
  unfold parseM
  rw [scanM_append (casgChars (0xA000 + 256 * my + c) ++ lmrChars1 (0x9000 + 256 * mx + bx))
    8 (0x9000, 0xA000) nulC (headC (signedDec bx)) ((signedDec bx).tail ++ signedDec c)
    (by
      rw [List.length_append]
      have h1 := casg_len (0xA000 + 256 * my + c)
      have h2 := lmr1_len (0x9000 + 256 * mx + bx)
      omega)
    (by
      intro ch hch
      rcases List.mem_append.mp hch with h | h
      · exact casgM_members _ ch h
      · exact lmr1_members _ ch h)
    (signedDec_head_mflag bx)]
  simp only
  rw [parseNum_signedDec bx hbx (signedDec c) (signedDec_head_digit c)]
  simp only
  rw [← List.append_nil ((signedDec c).tail)]
  rw [parseNum_signedDec c hc [] (by decide)]
  simp only
  rw [flagOrMX_append, flagOrMY_append, flagOrMX_casg, flagOrMX_lmr1, flagOrMY_casg,
    flagOrMY_lmr1, flagOrK_casg]
  have hxs := lmrSum_shape 0x9000 mx bx (by norm_num) hmx hbx
  have hys := flagSum_shape 0xA000 my c (by norm_num) hmy hc
  rw [hxs, hys, Nat.zero_or, Nat.or_zero]
  rw [(base_lor_M mx (by omega)).1, (base_lor_M my hmy).2]
  rw [lor_byte (by omega) hbx, lor_byte (by omega) hc]

lemma parseM_roundtrip (s : List Char) (h : parseM s ≠ 0) :
    parseM (printConfigM (parseM s / 65536) (parseM s % 65536)) = parseM s := by
  rcases parseM_shape s with h0 | ⟨mx, bx, my, c, hmx, hbx, hmy, hc, he⟩
  · exact absurd h0 h
  rw [he]
  have hdiv : ((0x9000 + 256 * mx + bx) * 65536 + (0xA000 + 256 * my + c)) / 65536 =
      0x9000 + 256 * mx + bx := by omega
  have hmod : ((0x9000 + 256 * mx + bx) * 65536 + (0xA000 + 256 * my + c)) % 65536 =
      0xA000 + 256 * my + c := by omega
  rw [hdiv, hmod]
  exact parseM_roundtrip_core mx bx my c hmx hbx hmy hc
set_option maxRecDepth 8000 in
lemma parseC_roundtrip_core : ∀ m, m < 16 → ∀ t, t < 8 → t ≠ 0 →
    parseC (printConfigC (0xB000 + 256 * m + t)) = 0xB000 + 256 * m + t := by decide

lemma orBtn : ∀ m, m < 16 → ∀ t, t < 8 → ∀ w, w < 8 →
    (0xB000 + 256 * m + t) ||| w = 0xB000 + 256 * m + (t ||| w) ∧ t ||| w < 8 := by decide

lemma orBtn_ne : ∀ t, t < 8 → ∀ w, w < 8 → w = 0 ∨ t ||| w ≠ 0 := by decide

lemma m3Mask_cases {c : Char} {w : Nat} (h : m3Mask c = some w) :
    w = 1 ∨ w = 4 ∨ w = 2 := by
  unfold m3Mask at h
  split_ifs at h <;> simp_all

lemma btnLoop_shape : ∀ (fuel m t : Nat) (nc : Char) (sp : List Char), m < 16 → t < 8 →
    btnLoop fuel (0xB000 + 256 * m + t) nc sp = 0 ∨
      ∃ u, u < 8 ∧ (t ≠ 0 → u ≠ 0) ∧
        btnLoop fuel (0xB000 + 256 * m + t) nc sp = 0xB000 + 256 * m + u := by
  intro fuel
  induction fuel with
  | zero =>
      intro m t nc sp hm ht
      right; exact ⟨t, ht, fun h => h, rfl⟩
  | succ fuel ih =>
      intro m t nc sp hm ht
      by_cases h0 : nc.toNat = 0
      · right
        refine ⟨t, ht, fun h => h, ?_⟩
        simp [btnLoop, h0]
      rcases hM : m3Mask nc with _ | w
      · left; simp [btnLoop, h0, hM]
      · have hw8 : w < 8 := by rcases m3Mask_cases hM with rfl | rfl | rfl <;> norm_num
        have hw0 : w ≠ 0 := by rcases m3Mask_cases hM with rfl | rfl | rfl <;> norm_num
        obtain ⟨heq, hlt⟩ := orBtn m hm t ht w hw8
        have hne := orBtn_ne t ht w hw8
        have hstep : btnLoop (fuel + 1) (0xB000 + 256 * m + t) nc sp =
            btnLoop fuel ((0xB000 + 256 * m + t) ||| w) (headC sp) sp.tail := by
          simp [btnLoop, h0, hM]
        rw [hstep, heq]
        rcases ih m (t ||| w) (headC sp) sp.tail hm hlt with h | ⟨u, hu, hu0, h⟩
        · left; exact h
        · right; exact ⟨u, hu, fun _ => hu0 (hne.resolve_left hw0), h⟩

lemma parseC_shape (s : List Char) :
    parseC s = 0 ∨ ∃ m t, m < 16 ∧ t < 8 ∧ t ≠ 0 ∧ parseC s = 0xB000 + 256 * m + t := by
  obtain ⟨m0, hm0, hs⟩ :=
    scanCASG_shape 0xB000 (by norm_num) 5 0xB000 nulC s ⟨0, by norm_num, by norm_num⟩
  simp only [parseC]
  split_ifs with h0
  · left; rfl
  rcases hM : m3Mask (scanCASG 5 0xB000 nulC s).2.1 with _ | w
  · left
    simp [btnLoop, h0, hM]
  · have hw8 : w < 8 := by rcases m3Mask_cases hM with rfl | rfl | rfl <;> norm_num
    have hw0 : w ≠ 0 := by rcases m3Mask_cases hM with rfl | rfl | rfl <;> norm_num
    have hstep : btnLoop 3 (scanCASG 5 0xB000 nulC s).1 (scanCASG 5 0xB000 nulC s).2.1
        (scanCASG 5 0xB000 nulC s).2.2 =
        btnLoop 2 ((scanCASG 5 0xB000 nulC s).1 ||| w)
          (headC (scanCASG 5 0xB000 nulC s).2.2) (scanCASG 5 0xB000 nulC s).2.2.tail := by
      simp [btnLoop, h0, hM]
    rw [hstep, hs]
    obtain ⟨heq, hlt⟩ := orBtn m0 hm0 0 (by norm_num) w hw8
    have hne := orBtn_ne 0 (by norm_num) w hw8
    rw [Nat.add_zero] at heq
    rw [heq]
    rcases btnLoop_shape 2 m0 (0 ||| w) _ _ hm0 hlt with h | ⟨u, hu, hu0, h⟩
    · left; exact h
    · right
      exact ⟨m0, u, hm0, hu, hu0 (hne.resolve_left hw0), h⟩

lemma parseC_roundtrip (s : List Char) (h : parseC s ≠ 0) :
    parseC (printConfigC (parseC s)) = parseC s := by
  rcases parseC_shape s with h0 | ⟨m, t, hm, ht, ht0, he⟩
  · exact absurd h0 h
  rw [he]
  exact parseC_roundtrip_core m hm t ht ht0

/-- **C4** (amended).  Printing a stored entry and re-parsing the printed
text is the identity on every nonzero parsed action value, except that a
keyboard entry needs the `kbRoundTrippable` proviso: a printable value byte
cannot carry the shift modifier through the apostrophe form (`parseK` masks
it off, `KC_SPEC_MASK`), and a hex-printed byte must be at least 0x10 (one
digit fails the two-digit check) with low nibble not 0xF (the uppercase-`F`
conversion bug of claim C9). -/
theorem c4_roundtrip_amended :
    ∀ s : List Char,
      (parseW s ≠ 0 → parseW (printConfigW (parseW s)) = parseW s) ∧
      (parseC s ≠ 0 → parseC (printConfigC (parseC s)) = parseC s) ∧
      (parseM s ≠ 0 →
        parseM (printConfigM (parseM s / 65536) (parseM s % 65536)) = parseM s) ∧
      (parseK s ≠ 0 → kbRoundTrippable (parseK s) →
        parseK (printConfigK (parseK s)) = parseK s) :=
  fun s => ⟨parseW_roundtrip s, parseC_roundtrip s, parseM_roundtrip s, parseK_roundtrip s⟩

/-- Concrete instantiation of `c4_roundtrip_amended`: one spec of each of
the four kinds survives the print-then-reparse cycle. -/
theorem c4_roundtrip_amended_witness :
    parseW (printConfigW (parseW ['+', '1'])) = parseW ['+', '1'] ∧
    parseC (printConfigC (parseC ['c', 'l'])) = parseC ['c', 'l'] ∧
    parseM (printConfigM (parseM ['+', '5', '-', '1', '0'] / 65536)
        (parseM ['+', '5', '-', '1', '0'] % 65536)) = parseM ['+', '5', '-', '1', '0'] ∧
    parseK (printConfigK (parseK ['0', 'x', '4', '1'])) = parseK ['0', 'x', '4', '1'] :=
  ⟨(c4_roundtrip_amended ['+', '1']).1 (by decide),
   (c4_roundtrip_amended ['c', 'l']).2.1 (by decide),
   (c4_roundtrip_amended ['+', '5', '-', '1', '0']).2.2.1 (by decide),
   (c4_roundtrip_amended ['0', 'x', '4', '1']).2.2.2 (by decide)
     (by unfold kbRoundTrippable; decide)⟩
end JogWheel
